import Mathlib

/-!
# Monitor capture source (plugins/win-capture/duplicator-monitor-capture.c)

A shallow embedding of the capture session of the desktop-duplication monitor
source: the session record, the settings defaults and update, the per-frame
tick (target resolver, region smoother, visibility gate, retry timer, frame
pull), the size queries and the render calls.

Conventions of the embedding.

* C `float` values (`reset_timeout`, `seconds`, the operands of `lerp`) are
  rationals, as every binary32 value is one. A float operation is the exact
  operation followed by the rounding `f32` to binary32 (24 significant bits,
  subnormals below 2 ^ -126, to nearest, ties to even), each operation rounded
  on its own: no fused multiply-add and no wider intermediate precision. NaN
  and the infinities are not represented: a result of magnitude 2 ^ 128 or
  more is kept as the rounded rational. The double computation of `round` is
  exact.
* `long` is the 32-bit Windows `LONG`, `uint32_t` is a natural number below
  `2 ^ 32`; conversions reduce modulo `2 ^ 32` (`to_long`, `to_uint32`).
* A nullable pointer is an `Option`; handles are natural numbers.
* The operating system, the graphics subsystem and the host are a record of
  answers (`host`), one record per tick. Calls into the duplication subsystem
  are logged (`gs_call`) so that they can be counted, and the calls of a render
  are listed (`draw_call`).
-/

namespace DuplicatorCapture

/-! ## Data model -/

/-- RESET_INTERVAL_SEC, line 29. -/
def RESET_INTERVAL_SEC : ℚ := 3

/-- The struct region (lines 31-36). -/
structure region_t where
  x : Int
  y : Int
  width : Nat
  height : Nat
deriving DecidableEq, Repr

/-- What memset(&r, 0, sizeof(region_t)) leaves in a region. -/
def region_zero : region_t := { x := 0, y := 0, width := 0, height := 0 }

/-- The struct duplicator_capture (lines 38-54). The duplicator pointer is
none when NULL; cursor_data is an uninterpreted token. -/
structure duplicator_capture where
  source : Nat
  monitor : Int
  rot : Int
  capture_cursor : Bool
  capture_foreground_window : Bool
  showing : Bool
  capture : region_t
  target : region_t
  display : region_t
  duplicator : Option Nat
  reset_timeout : ℚ
  cursor_data : Nat
deriving DecidableEq, Repr

/-- A value stored in the settings object. -/
inductive obs_value where
  | int (v : Int)
  | bool (b : Bool)
deriving DecidableEq, Repr

/-- Modelled from the spec: the settings object of libobs (obs_data_t) is not
among the sources; section 6 describes it as key/value pairs managed by the
host, each key with an optional default. A user value shadows a default. -/
structure obs_data where
  values : List (String × obs_value)
  defaults : List (String × obs_value)
deriving DecidableEq, Repr

/-- Modelled from the spec: looking a key up in the settings object, user
values first, then defaults. -/
def obs_data_item (settings : obs_data) (name : String) : Option obs_value :=
  match settings.values.lookup name with
  | some v => some v
  | none => settings.defaults.lookup name

/-- Modelled from the spec: obs_data_get_int, 0 for a key that is absent or not
an integer. -/
def obs_data_get_int (settings : obs_data) (name : String) : Int :=
  match obs_data_item settings name with
  | some (obs_value.int v) => v
  | _ => 0

/-- Modelled from the spec: obs_data_get_bool, false for a key that is absent
or not a boolean. -/
def obs_data_get_bool (settings : obs_data) (name : String) : Bool :=
  match obs_data_item settings name with
  | some (obs_value.bool b) => b
  | _ => false

/-- A window handle together with its chain of parents: GetParent of a top
window is NULL. The chain of a window is finite. -/
inductive HWND where
  | top (id : Nat) : HWND
  | child (id : Nat) (parent : HWND) : HWND
deriving DecidableEq, Repr

/-- The Win32 POINT. -/
structure POINT where
  x : Int
  y : Int
deriving DecidableEq, Repr

/-- The Win32 RECT. -/
structure RECT where
  left : Int
  top : Int
  right : Int
  bottom : Int
deriving DecidableEq, Repr

/-- The struct gs_monitor_info filled by gs_get_duplicator_monitor_info. -/
structure gs_monitor_info where
  rotation_degrees : Int
  x : Int
  y : Int
  cx : Int
  cy : Int
deriving DecidableEq, Repr

/-- The size of a texture, what gs_texture_get_width and gs_texture_get_height
read. -/
structure gs_texture where
  width : Nat
  height : Nat
deriving DecidableEq, Repr

/-- The answers of the host, the operating system and the graphics subsystem
during one call. -/
structure host where
  obs_source_showing : Bool
  GetForegroundWindow : HWND
  MonitorFromPoint : POINT → Nat
  MonitorFromWindow : HWND → Nat
  GetWindowLong_STYLE : HWND → Nat
  GetClientRect : HWND → RECT
  ClientToScreen : HWND → POINT → POINT
  gs_duplicator_create : Int → Option Nat
  gs_duplicator_update_frame : Nat → Bool
  gs_duplicator_get_texture : Nat → Option gs_texture
  gs_get_duplicator_monitor_info : Int → Option gs_monitor_info
  cursor_capture : Nat → Nat
  cursor_data_free : Nat → Nat

/-- A logged call into the duplication subsystem. -/
inductive gs_call where
  | duplicator_create (monitor : Int)
  | duplicator_destroy (duplicator : Option Nat)
  | duplicator_update_frame (duplicator : Nat)
deriving DecidableEq, Repr

/-- Whether a logged call is a creation attempt. -/
def gs_call.is_create : gs_call → Bool
  | gs_call.duplicator_create _ => true
  | _ => false

/-- The number of creation attempts in a log. -/
def creation_attempts (calls : List gs_call) : Nat :=
  calls.countP gs_call.is_create

/-! ## Machine conversions -/

/-- Conversion to the 32-bit signed LONG (also the cast to int). -/
def to_long (z : Int) : Int := (z + 2 ^ 31) % 2 ^ 32 - 2 ^ 31

/-- Conversion to uint32_t. -/
def to_uint32 (z : Int) : Nat := (z % 2 ^ 32).toNat

/-- The C function round: to the nearest integer, halves away from zero. -/
def c_round (q : ℚ) : Int := if 0 ≤ q then ⌊q + 1 / 2⌋ else ⌈q - 1 / 2⌉

/-- Rounding to the nearest integer, a tie going to the even one. -/
def round_even (q : ℚ) : Int :=
  if q - ⌊q⌋ < 1 / 2 then ⌊q⌋
  else if 1 / 2 < q - ⌊q⌋ then ⌊q⌋ + 1
  else if ⌊q⌋ % 2 = 0 then ⌊q⌋
  else ⌊q⌋ + 1

/-- The exponent of the binade of x in binary32: the floor of the binary
logarithm of |x|, not below the least normal exponent -126. -/
def f32_exponent (x : ℚ) : Int := max (Int.log 2 |x|) (-126)

/-- The spacing of the binary32 values around x: 24 significant bits. -/
def f32_ulp (x : ℚ) : ℚ := 2 ^ (f32_exponent x - 23)

/-- Rounding to binary32, to nearest, ties to even: what a float operation
does to its exact result, and a conversion of an integer to float to the
integer. -/
def f32 (x : ℚ) : ℚ := round_even (x / f32_ulp x) * f32_ulp x

/-- Modelled from the spec: the caption style mask WS_CAPTION of winuser.h,
which is not among the sources (section 4.2: the caption/title-bar style). -/
def WS_CAPTION : Nat := 0x00C00000

/-! ## Operations -/

/-- The function update_settings (lines 58-77). -/
def update_settings (capture : duplicator_capture) (settings : obs_data) :
    duplicator_capture × List gs_call :=
  ({ capture with
      monitor := to_long (obs_data_get_int settings "monitor")
      capture_cursor := obs_data_get_bool settings "capture_cursor"
      capture_foreground_window := obs_data_get_bool settings "capture_foreground_window"
      duplicator := none
      capture := region_zero
      target := region_zero
      display := region_zero
      rot := 0
      reset_timeout := RESET_INTERVAL_SEC },
   [gs_call.duplicator_destroy capture.duplicator])

/-- The function duplicator_capture_update (lines 108-112). -/
def duplicator_capture_update (data : duplicator_capture) (settings : obs_data) :
    duplicator_capture × List gs_call :=
  update_settings data settings

/-- What bzalloc(sizeof(struct duplicator_capture)) returns: all bytes zero. -/
def bzalloc_capture : duplicator_capture :=
  { source := 0, monitor := 0, rot := 0, capture_cursor := false,
    capture_foreground_window := false, showing := false,
    capture := region_zero, target := region_zero, display := region_zero,
    duplicator := none, reset_timeout := 0, cursor_data := 0 }

/-- The function duplicator_capture_create (lines 114-125). -/
def duplicator_capture_create (settings : obs_data) (source : Nat) :
    duplicator_capture × List gs_call :=
  update_settings { bzalloc_capture with source := source } settings

/-- The function reset_capture_data (lines 127-141). A NULL texture has width
and height 0, and monitor_info stays zero when the monitor is not found. -/
def reset_capture_data (os : host) (capture : duplicator_capture) : duplicator_capture :=
  let monitor_info : gs_monitor_info :=
    match os.gs_get_duplicator_monitor_info capture.monitor with
    | some info => info
    | none => { rotation_degrees := 0, x := 0, y := 0, cx := 0, cy := 0 }
  let texture : gs_texture :=
    match capture.duplicator.bind os.gs_duplicator_get_texture with
    | some t => t
    | none => { width := 0, height := 0 }
  { capture with
      display := { x := monitor_info.x, y := monitor_info.y,
                   width := texture.width, height := texture.height }
      capture := { x := monitor_info.x, y := monitor_info.y,
                   width := texture.width, height := texture.height }
      rot := monitor_info.rotation_degrees }

/-- The function free_capture_data (lines 143-153). -/
def free_capture_data (os : host) (capture : duplicator_capture) :
    duplicator_capture × List gs_call :=
  ({ capture with
      cursor_data := os.cursor_data_free capture.cursor_data
      duplicator := none
      capture := region_zero
      target := region_zero
      display := region_zero
      rot := 0
      reset_timeout := 0 },
   [gs_call.duplicator_destroy capture.duplicator])

/-- The function is_valid_window (lines 155-181). The executable-name block of
lines 167-174 changes nothing and is left out. -/
def is_valid_window (os : host) (capture : duplicator_capture) (hwnd : HWND) : Bool :=
  let monitor_topleft : POINT := { x := capture.display.x, y := capture.display.y }
  let monitor_capture := os.MonitorFromPoint monitor_topleft
  let monitor_window := os.MonitorFromWindow hwnd
  if monitor_capture ≠ monitor_window then false
  else if (os.GetWindowLong_STYLE hwnd) &&& WS_CAPTION ≠ 0 then true
  else false

/-- The function lerp (lines 183-188), each float operation rounded. -/
def lerp (a b x : ℚ) : ℚ :=
  let a := f32 (a * 100)
  let b := f32 (b * 100)
  f32 (f32 (f32 (f32 (1 - x) * a) + f32 (x * b)) / 100)

/-- The loop of lines 196-201: climb from a window to its top-level ancestor. -/
def top_level_window : HWND → HWND
  | HWND.top id => HWND.top id
  | HWND.child _ parent => top_level_window parent

/-- The target resolver, lines 195-241 of duplicator_capture_tick. -/
def resolve_target (os : host) (capture : duplicator_capture) : duplicator_capture :=
  let hwnd := top_level_window os.GetForegroundWindow
  if !is_valid_window os capture hwnd then
    { capture with
        target := { x := capture.display.x, y := capture.display.y,
                    width := capture.display.width, height := capture.display.height } }
  else
    let rect := os.GetClientRect hwnd
    let topLeft := os.ClientToScreen hwnd { x := rect.left, y := rect.top }
    let bottomRight := os.ClientToScreen hwnd { x := rect.right, y := rect.bottom }
    let x := topLeft.x
    let y := topLeft.y
    let width := to_uint32 (bottomRight.x - topLeft.x)
    let height := to_uint32 (bottomRight.y - topLeft.y)
    if capture.target.x ≠ x ∨ capture.target.y ≠ y ∨
        capture.target.width ≠ width ∨ capture.target.height ≠ height then
      { capture with target := { x := x, y := y, width := width, height := height } }
    else capture

/-- The assignments of lines 247-255: one step of the smoother on a region.
The fields are converted to float when passed to lerp. -/
def smooth_region (target capture : region_t) (seconds : ℚ) : region_t :=
  let factor := f32 (seconds * 30)
  { x := to_long (c_round (lerp (f32 target.x) (f32 capture.x) factor))
    y := to_long (c_round (lerp (f32 target.y) (f32 capture.y) factor))
    width := to_uint32 (to_long (c_round
      (lerp (f32 target.width) (f32 capture.width) factor)))
    height := to_uint32 (to_long (c_round
      (lerp (f32 target.height) (f32 capture.height) factor))) }

/-- The region smoother, lines 243-256 of duplicator_capture_tick. -/
def smooth_capture (capture : duplicator_capture) (seconds : ℚ) : duplicator_capture :=
  if capture.capture.x ≠ capture.target.x ∨ capture.capture.y ≠ capture.target.y ∨
      capture.capture.width ≠ capture.target.width ∨
      capture.capture.height ≠ capture.target.height then
    { capture with capture := smooth_region capture.target capture.capture seconds }
  else capture

/-- Lines 279-288 of duplicator_capture_tick: count up and, at the threshold,
try to create the duplicator. -/
def acquire_duplicator (os : host) (capture : duplicator_capture) (seconds : ℚ) :
    duplicator_capture × List gs_call :=
  match capture.duplicator with
  | some _ => (capture, [])
  | none =>
    let capture := { capture with reset_timeout := f32 (capture.reset_timeout + seconds) }
    if capture.reset_timeout ≥ RESET_INTERVAL_SEC then
      ({ capture with
          duplicator := os.gs_duplicator_create capture.monitor
          reset_timeout := 0 },
       [gs_call.duplicator_create capture.monitor])
    else (capture, [])

/-- Lines 291-292 of duplicator_capture_tick: refresh the cursor state when the
cursor is captured. -/
def capture_cursor_state (os : host) (capture : duplicator_capture) : duplicator_capture :=
  { capture with
      cursor_data :=
        if capture.capture_cursor then os.cursor_capture capture.cursor_data
        else capture.cursor_data }

/-- Lines 290-299 of duplicator_capture_tick: pull a frame from a held
duplicator. -/
def pull_frame (os : host) (capture : duplicator_capture) :
    duplicator_capture × List gs_call :=
  match capture.duplicator with
  | none => (capture, [])
  | some duplicator =>
    let capture := capture_cursor_state os capture
    if !os.gs_duplicator_update_frame duplicator then
      let freed := free_capture_data os capture
      (freed.1, gs_call.duplicator_update_frame duplicator :: freed.2)
    else if capture.capture.width = 0 then
      (reset_capture_data os capture, [gs_call.duplicator_update_frame duplicator])
    else (capture, [gs_call.duplicator_update_frame duplicator])

/-- Lines 194-257 of duplicator_capture_tick: the resolver and the smoother run
only in window-follow mode. -/
def track_foreground_window (os : host) (capture : duplicator_capture) (seconds : ℚ) :
    duplicator_capture :=
  if capture.capture_foreground_window then smooth_capture (resolve_target os capture) seconds
  else capture

/-- Lines 273-275 of duplicator_capture_tick: a source that was not showing
gets its timer set to the threshold. -/
def prime_reset_timeout (capture : duplicator_capture) : duplicator_capture :=
  { capture with
      reset_timeout := if !capture.showing then RESET_INTERVAL_SEC else capture.reset_timeout }

/-- The function duplicator_capture_tick (lines 190-307). -/
def duplicator_capture_tick (os : host) (data : duplicator_capture) (seconds : ℚ) :
    duplicator_capture × List gs_call :=
  let capture := track_foreground_window os data seconds
  if !os.obs_source_showing then
    if capture.showing then
      let freed := free_capture_data os capture
      ({ freed.1 with showing := false }, freed.2)
    else (capture, [])
  else
    let capture := prime_reset_timeout capture
    let acquired := acquire_duplicator os capture seconds
    let pulled := pull_frame os acquired.1
    ({ pulled.1 with showing := true }, acquired.2 ++ pulled.2)

/-- The function duplicator_capture_width (lines 309-314). -/
def duplicator_capture_width (data : duplicator_capture) : Nat :=
  if data.rot.tmod 180 = 0 then data.capture.width else data.capture.height

/-- The function duplicator_capture_height (lines 316-321). -/
def duplicator_capture_height (data : duplicator_capture) : Nat :=
  if data.rot.tmod 180 = 0 then data.capture.height else data.capture.width

/-- Modelled from the spec: obs_data_set_default_int of libobs, which is not
among the sources; it registers a default under a key (section 6: each setting
has a default). -/
def obs_data_set_default_int (settings : obs_data) (name : String) (val : Int) : obs_data :=
  { settings with defaults := (name, obs_value.int val) :: settings.defaults }

/-- Modelled from the spec: obs_data_set_default_bool of libobs, which is not
among the sources; it registers a default under a key. -/
def obs_data_set_default_bool (settings : obs_data) (name : String) (val : Bool) : obs_data :=
  { settings with defaults := (name, obs_value.bool val) :: settings.defaults }

/-- The function duplicator_capture_defaults (lines 101-106). -/
def duplicator_capture_defaults (settings : obs_data) : obs_data :=
  let settings := obs_data_set_default_int settings "monitor" 0
  let settings := obs_data_set_default_bool settings "capture_cursor" true
  obs_data_set_default_bool settings "capture_focusedwindow" false

/-- The keys update_settings reads (lines 61-64). -/
def update_settings_keys : List String :=
  ["monitor", "capture_cursor", "capture_foreground_window"]

/-- A call into the drawing interface made while rendering. Arguments are
recorded with the values of the argument expressions at the call site. The
angle of gs_matrix_rotaa4f is recorded in degrees, as the argument of the RAD
conversion. -/
inductive draw_call where
  | gs_matrix_push
  | gs_matrix_translate3f (x y z : ℚ)
  | gs_matrix_rotaa4f (x y z : ℚ) (degrees : ℚ)
  | gs_draw_sprite_subregion (texture : gs_texture) (flip : Nat) (x y : Int) (cx cy : Nat)
  | gs_matrix_pop
  | cursor_draw (cursor_data : Nat) (x_offset y_offset : Int) (x_scale y_scale : ℚ)
      (width height : Nat)
deriving DecidableEq, Repr

/-- The function draw_cursor (lines 323-331). The negation of a long is the
negation of the integer; at the least long it is undefined in C. -/
def draw_cursor (capture : duplicator_capture) : draw_call :=
  draw_call.cursor_draw capture.cursor_data (-capture.capture.x) (-capture.capture.y) 1 1
    (if capture.rot.tmod 180 = 0 then capture.capture.width else capture.capture.height)
    (if capture.rot.tmod 180 = 0 then capture.capture.height else capture.capture.width)

/-- A call the host makes on a live session. -/
inductive host_call where
  | update (settings : obs_data) : host_call
  | video_tick (os : host) (seconds : ℚ) : host_call

/-- One call of the host applied to the session. -/
def host_call.apply : host_call → duplicator_capture → duplicator_capture × List gs_call
  | host_call.update settings, data => duplicator_capture_update data settings
  | host_call.video_tick os seconds, data => duplicator_capture_tick os data seconds

/-- The session after a sequence of calls, with the log of all of them. -/
def run_calls : List host_call → duplicator_capture → duplicator_capture × List gs_call
  | [], data => (data, [])
  | call :: rest, data =>
    let first := call.apply data
    let later := run_calls rest first.1
    (later.1, first.2 ++ later.2)

/-- A session state the host can reach: create, then updates and ticks. -/
def Reachable (data : duplicator_capture) : Prop :=
  ∃ (settings : obs_data) (source : Nat) (calls : List host_call),
    data = (run_calls calls (duplicator_capture_create settings source).1).1

/-- What every reachable session satisfies: a session that is not showing holds
no duplicator; outside window-follow mode capture equals display and target is
zero, and without a duplicator the geometry is zero. -/
def session_inv (data : duplicator_capture) : Prop :=
  (data.showing = false → data.duplicator = none) ∧
  (data.capture_foreground_window = false →
    data.capture = data.display ∧ data.target = region_zero) ∧
  (data.capture_foreground_window = false → data.duplicator = none →
    data.capture = region_zero ∧ data.display = region_zero ∧ data.rot = 0)

/-! ## Concrete hosts and sessions used in the examples -/

/-- A host with one monitor at (0,0) of 1920x1080, rotation 0, and no
qualifying foreground window; the arguments fix whether the source is shown,
what creation returns and whether the frame pull succeeds. -/
def example_host (showing : Bool) (created : Option Nat) (frame_ok : Bool) : host :=
  { obs_source_showing := showing
    GetForegroundWindow := HWND.top 0
    MonitorFromPoint := fun _ => 0
    MonitorFromWindow := fun _ => 0
    GetWindowLong_STYLE := fun _ => 0
    GetClientRect := fun _ => { left := 0, top := 0, right := 0, bottom := 0 }
    ClientToScreen := fun _ p => p
    gs_duplicator_create := fun _ => created
    gs_duplicator_update_frame := fun _ => frame_ok
    gs_duplicator_get_texture := fun _ => some { width := 1920, height := 1080 }
    gs_get_duplicator_monitor_info := fun _ =>
      some { rotation_degrees := 0, x := 0, y := 0, cx := 1920, cy := 1080 }
    cursor_capture := fun n => n
    cursor_data_free := fun n => n }

/-- Empty settings: every key reads as 0 or false. -/
def example_settings : obs_data := { values := [], defaults := [] }

/-- The session right after create with empty settings. -/
def example_session : duplicator_capture := (duplicator_capture_create example_settings 1).1

/-- A session holding a capture of 1920x1080 at the origin under a given
rotation. -/
def rotated_session (rot : Int) : duplicator_capture :=
  { example_session with
      rot := rot
      duplicator := some 5
      showing := true
      capture := { x := 0, y := 0, width := 1920, height := 1080 }
      display := { x := 0, y := 0, width := 1920, height := 1080 } }

/-- Settings that switch window-follow mode on. -/
def follow_settings : obs_data :=
  { values := [("capture_foreground_window", obs_value.bool true)], defaults := [] }

/-- The session right after create in window-follow mode. -/
def follow_session : duplicator_capture := (duplicator_capture_create follow_settings 1).1

/-- Whether the session holds a duplicator after each call of a sequence. -/
def stays_held : List host_call → duplicator_capture → Bool
  | [], _ => true
  | call :: rest, data =>
    (call.apply data).1.duplicator.isSome && stays_held rest (call.apply data).1

/-- Consecutive ticks of the same length, one per host record. -/
def ticks_of (hosts : List host) (seconds : ℚ) : List host_call :=
  hosts.map (fun os => host_call.video_tick os seconds)

/-- The session after one tick in which creation is attempted and fails: no
duplicator, showing flag set, retry timer 0. -/
def failed_session : duplicator_capture :=
  (duplicator_capture_tick (example_host true none true) example_session 0).1

/-- The smoother of lines 243-256 applied n times with the same elapsed time;
it never writes target. -/
def smooth_steps (seconds : ℚ) (n : Nat) (capture : duplicator_capture) : duplicator_capture :=
  Nat.iterate (fun s => smooth_capture s seconds) n capture

/-- A region whose fields are at most 65536 in magnitude. -/
def region_small (r : region_t) : Prop :=
  -65536 ≤ r.x ∧ r.x ≤ 65536 ∧ -65536 ≤ r.y ∧ r.y ≤ 65536 ∧
    r.width ≤ 65536 ∧ r.height ≤ 65536

/-- The largest distance between the fields of two regions. -/
def region_gap (t c : region_t) : Nat :=
  max (max (t.x - c.x).natAbs (t.y - c.y).natAbs)
    (max ((t.width : Int) - c.width).natAbs ((t.height : Int) - c.height).natAbs)

/-- The value b lies between t and a, ends included. -/
def between (t a b : Int) : Prop := (t ≤ b ∧ b ≤ a) ∨ (a ≤ b ∧ b ≤ t)

/-- Every field of b lies between the fields of t and a. -/
def region_between (t a b : region_t) : Prop :=
  between t.x a.x b.x ∧ between t.y a.y b.y ∧
    between t.width a.width b.width ∧ between t.height a.height b.height

/-- The field value r is at the target t when c was, and otherwise strictly
closer to t than c without passing t. -/
def closer (t c r : Int) : Prop :=
  (c = t → r = t) ∧ (t < c → t ≤ r ∧ r < c) ∧ (c < t → c < r ∧ r ≤ t)

/-- A session in window-follow mode whose capture is one unit away from a zero
target in every field. -/
def stuck_session : duplicator_capture :=
  { follow_session with
      capture := { x := 1, y := 1, width := 1, height := 1 }
      target := { x := 0, y := 0, width := 0, height := 0 } }

/-- A session whose capture is some way from its target. -/
def moving_session : duplicator_capture :=
  { follow_session with
      capture := { x := 0, y := 0, width := 1920, height := 1080 }
      target := { x := 100, y := 50, width := 800, height := 600 } }

/-- Ticks, each with its own host record and elapsed time. -/
def tick_calls (ticks : List (host × ℚ)) : List host_call :=
  ticks.map (fun t => host_call.video_tick t.1 t.2)

/-- The tick time of a run of ticks, in seconds. -/
def elapsed (ticks : List (host × ℚ)) : ℚ := (ticks.map Prod.snd).sum

/-- The creation calls of a log. -/
def creation_calls (calls : List gs_call) : List gs_call := calls.filter gs_call.is_create

/-- The field value r lies strictly past the target t, on the other side of t
than the value c it started from. -/
def overshoots (t c r : Int) : Prop := (c < t ∧ t < r) ∨ (t < c ∧ r < t)

/-- Settings that select monitor 1. -/
def monitor_settings : obs_data :=
  { values := [("monitor", obs_value.int 1)], defaults := [] }

/-- The retry timer after j ticks of d seconds counted from 0 without an
attempt in between: the binary32 sum, rounded at each tick. -/
def timer_sum (d : ℚ) : Nat → ℚ
  | 0 => 0
  | j + 1 => f32 (timer_sum d j + d)

/-- A session whose capture width 0 lies below its target width 10. -/
def wrap_session : duplicator_capture :=
  { follow_session with
      capture := { x := 0, y := 0, width := 0, height := 0 }
      target := { x := 0, y := 0, width := 10, height := 0 } }

/-- A session in window-follow mode whose capture is one unit away from the
target 1000 in every field. -/
def near_session : duplicator_capture :=
  { follow_session with
      capture := { x := 1001, y := 1001, width := 1001, height := 1001 }
      target := { x := 1000, y := 1000, width := 1000, height := 1000 } }

/-- A session in window-follow mode that holds a duplicator with the geometry
of a 1920x1080 monitor at the origin and follows a window. -/
def held_follow_session : duplicator_capture :=
  { follow_session with
      duplicator := some 5
      showing := true
      capture := { x := 0, y := 0, width := 1920, height := 1080 }
      display := { x := 0, y := 0, width := 1920, height := 1080 }
      target := { x := 100, y := 100, width := 800, height := 600 } }

/-- Settings that switch window-follow mode on and select monitor 1. -/
def follow_monitor_settings : obs_data :=
  { values := [("monitor", obs_value.int 1),
      ("capture_foreground_window", obs_value.bool true)], defaults := [] }

/-- The session right after create with window-follow on and monitor 1
selected. -/
def follow_monitor_session : duplicator_capture :=
  (duplicator_capture_create follow_monitor_settings 1).1

/-- A host with monitor 0 at (0,0) and monitor 1 at (1920,0), both 1920x1080;
the foreground window has a caption and lies on monitor 0, with the client
rectangle 800x600 at (100,100). The arguments fix whether the source is shown
and what creation returns; a frame pull succeeds. -/
def two_monitor_host (showing : Bool) (created : Option Nat) : host :=
  { obs_source_showing := showing
    GetForegroundWindow := HWND.top 7
    MonitorFromPoint := fun p => if p.x < 1920 then 0 else 1
    MonitorFromWindow := fun _ => 0
    GetWindowLong_STYLE := fun _ => WS_CAPTION
    GetClientRect := fun _ => { left := 0, top := 0, right := 800, bottom := 600 }
    ClientToScreen := fun _ p => { x := p.x + 100, y := p.y + 100 }
    gs_duplicator_create := fun _ => created
    gs_duplicator_update_frame := fun _ => true
    gs_duplicator_get_texture := fun _ => some { width := 1920, height := 1080 }
    gs_get_duplicator_monitor_info := fun i =>
      if i = 0 then some { rotation_degrees := 0, x := 0, y := 0, cx := 1920, cy := 1080 }
      else if i = 1 then
        some { rotation_degrees := 0, x := 1920, y := 0, cx := 1920, cy := 1080 }
      else none
    cursor_capture := fun n => n
    cursor_data_free := fun n => n }

/-! # Theorems -/

/-! ## Rounding to binary32 -/

/-- Rounding to even moves a value by at most one half. -/
theorem round_even_error (q : ℚ) : |(round_even q : ℚ) - q| ≤ 1 / 2 := by
  have h1 := Int.floor_le q
  have h2 := Int.lt_floor_add_one q
  unfold round_even
  rw [abs_le]
  split_ifs <;> push_cast <;> constructor <;> linarith

/-- Rounding to even does not pass an integer from below. -/
theorem le_round_even (n : Int) (q : ℚ) (h : (n : ℚ) ≤ q) : n ≤ round_even q := by
  have h1 : n ≤ ⌊q⌋ := Int.le_floor.2 h
  unfold round_even
  split_ifs <;> omega

/-- Rounding to even does not pass an integer from above. -/
theorem round_even_le (n : Int) (q : ℚ) (h : q ≤ (n : ℚ)) : round_even q ≤ n := by
  have h2 := Int.floor_le q
  have h3 := Int.lt_floor_add_one q
  unfold round_even
  by_cases hq : q = (n : ℚ)
  · subst hq
    simp
  · have hlt : q < n := lt_of_le_of_ne h hq
    have h1 : ⌊q⌋ < n := Int.floor_lt.2 hlt
    split_ifs <;> omega

/-- A value within less than one half of an integer rounds to it. -/
theorem round_even_eq (n : Int) (q : ℚ) (h : |q - n| < 1 / 2) : round_even q = n := by
  have e := round_even_error q
  rw [abs_lt] at h
  rw [abs_le] at e
  have l2 : ((n : ℚ) - 1) < round_even q := by linarith
  have h2 : (round_even q : ℚ) < n + 1 := by linarith
  have l3 : n - 1 < round_even q := by exact_mod_cast l2
  have h3 : round_even q < n + 1 := by exact_mod_cast h2
  omega

/-- The spacing of binary32 values is positive. -/
theorem f32_ulp_pos (x : ℚ) : 0 < f32_ulp x := by
  unfold f32_ulp
  positivity

/-- Rounding to binary32 keeps 0 and the sign of a value that is not negative. -/
theorem f32_nonneg (x : ℚ) (h : 0 ≤ x) : 0 ≤ f32 x := by
  unfold f32
  have hq : ((0 : Int) : ℚ) ≤ x / f32_ulp x := by
    simpa using div_nonneg h (le_of_lt (f32_ulp_pos x))
  have := le_round_even 0 _ hq
  have h2 : (0 : ℚ) ≤ round_even (x / f32_ulp x) := by exact_mod_cast this
  exact mul_nonneg h2 (le_of_lt (f32_ulp_pos x))

/-- The distance from a value to its binary32 rounding is at most half the
spacing. -/
theorem f32_error_ulp (x : ℚ) : |f32 x - x| ≤ f32_ulp x / 2 := by
  have hp := f32_ulp_pos x
  have e := round_even_error (x / f32_ulp x)
  have hx : f32 x - x = ((round_even (x / f32_ulp x) : ℚ) - x / f32_ulp x) * f32_ulp x := by
    unfold f32
    field_simp
  rw [hx, abs_mul, abs_of_pos hp]
  calc |(round_even (x / f32_ulp x) : ℚ) - x / f32_ulp x| * f32_ulp x
      ≤ 1 / 2 * f32_ulp x := mul_le_mul_of_nonneg_right e (le_of_lt hp)
    _ = f32_ulp x / 2 := by ring

/-- The exponent of a nonzero value below 2 ^ (e + 1) in magnitude is at most e,
for e at least -126. -/
theorem f32_exponent_le (x : ℚ) (e : Int) (hx : x ≠ 0) (he : -126 ≤ e)
    (h : |x| < 2 ^ (e + 1)) : f32_exponent x ≤ e := by
  unfold f32_exponent
  have h0 : 0 < |x| := abs_pos.2 hx
  have : Int.log 2 |x| < e + 1 :=
    (Int.lt_zpow_iff_log_lt (R := ℚ) (b := 2) (by norm_num) (x := e + 1) h0).1
      (by simpa using h)
  omega

/-- The exponent of a value of magnitude at least 2 ^ e is at least e. -/
theorem le_f32_exponent (x : ℚ) (e : Int) (h : 2 ^ e ≤ |x|) : e ≤ f32_exponent x := by
  unfold f32_exponent
  have h0 : 0 < |x| := lt_of_lt_of_le (by positivity) h
  have : e ≤ Int.log 2 |x| :=
    (Int.zpow_le_iff_le_log (R := ℚ) (b := 2) (by norm_num) (x := e) h0).1 (by simpa using h)
  omega

/-- Rounding 0 to binary32 gives 0. -/
theorem f32_zero : f32 0 = 0 := by
  simp [f32, round_even]

/-- The magnitude of a nonzero value is at least 2 to its exponent, unless the
exponent is the least one. -/
theorem f32_exponent_spec (x : ℚ) (hx : x ≠ 0) :
    f32_exponent x = -126 ∨ (2 : ℚ) ^ f32_exponent x ≤ |x| := by
  unfold f32_exponent
  have h0 : 0 < |x| := abs_pos.2 hx
  have h := Int.zpow_log_le_self (R := ℚ) (b := 2) (by norm_num) h0
  rcases le_total (Int.log 2 |x|) (-126) with hl | hl
  · left
    exact max_eq_right hl
  · right
    rw [max_eq_left hl]
    simpa using h

/-- The relative error of rounding to binary32 is at most 2 ^ -24, up to the
absolute error 2 ^ -150 of the subnormal range. -/
theorem f32_error (x Y : ℚ) (h : |x| ≤ Y) : |f32 x - x| ≤ Y / 2 ^ 24 + 1 / 2 ^ 150 := by
  have hY : 0 ≤ Y := le_trans (abs_nonneg x) h
  by_cases hx : x = 0
  · subst hx
    rw [f32_zero]
    simp only [sub_self, abs_zero]
    positivity
  · have e := f32_error_ulp x
    rcases f32_exponent_spec x hx with h1 | h1
    · have hu : f32_ulp x / 2 = 1 / 2 ^ 150 := by
        unfold f32_ulp
        rw [h1]
        norm_num
      rw [hu] at e
      have : 0 ≤ Y / 2 ^ 24 := by positivity
      linarith
    · have hu : f32_ulp x / 2 = 2 ^ f32_exponent x / 2 ^ 24 := by
        unfold f32_ulp
        rw [zpow_sub₀ (by norm_num : (2 : ℚ) ≠ 0)]
        norm_num
        ring
      rw [hu] at e
      have h2 : (2 : ℚ) ^ f32_exponent x / 2 ^ 24 ≤ Y / 2 ^ 24 := by
        apply div_le_div_of_nonneg_right (le_trans h1 h) (by positivity)
      have : (0 : ℚ) ≤ 1 / 2 ^ 150 := by positivity
      linarith

/-- Below 4 in magnitude, rounding to binary32 moves a value by at most
2 ^ -23. -/
theorem f32_error_small (x : ℚ) (h : |x| < 4) : |f32 x - x| ≤ 1 / 2 ^ 23 := by
  by_cases hx : x = 0
  · subst hx
    rw [f32_zero]
    simp only [sub_self, abs_zero]
    positivity
  · have e := f32_error_ulp x
    have he : f32_exponent x ≤ 1 := f32_exponent_le x 1 hx (by norm_num) (by norm_num; exact h)
    have hu : f32_ulp x ≤ 2 ^ ((1 : Int) - 23) := by
      unfold f32_ulp
      apply zpow_le_zpow_right₀ (by norm_num)
      omega
    have h2 : (2 : ℚ) ^ ((1 : Int) - 23) = 1 / 2 ^ 22 := by norm_num
    rw [h2] at hu
    have : f32_ulp x / 2 ≤ 1 / 2 ^ 23 := by
      have : (1 : ℚ) / 2 ^ 23 = 1 / 2 ^ 22 / 2 := by norm_num
      rw [this]
      linarith
    linarith

/-- Rounding to binary32 does not take a value of at least 3 below 3. -/
theorem f32_three_le (x : ℚ) (h : 3 ≤ x) : 3 ≤ f32 x := by
  have hx : x ≠ 0 := by linarith
  have habs : |x| = x := abs_of_pos (by linarith)
  have he : 1 ≤ f32_exponent x := le_f32_exponent x 1 (by rw [habs]; norm_num; linarith)
  have hp := f32_ulp_pos x
  rcases eq_or_lt_of_le he with h1 | h1
  · have hu : f32_ulp x = 1 / 2 ^ 22 := by
      unfold f32_ulp
      rw [← h1]
      norm_num
    unfold f32
    rw [hu]
    have hq : ((12582912 : Int) : ℚ) ≤ x / (1 / 2 ^ 22) := by
      rw [le_div_iff₀ (by positivity)]
      norm_num
      linarith
    have := le_round_even _ _ hq
    have h2 : ((12582912 : Int) : ℚ) ≤ round_even (x / (1 / 2 ^ 22)) := by exact_mod_cast this
    have h3 : (3 : ℚ) = ((12582912 : Int) : ℚ) * (1 / 2 ^ 22) := by norm_num
    rw [h3]
    exact mul_le_mul_of_nonneg_right h2 (by positivity)
  · rcases f32_exponent_spec x hx with h2 | h2
    · omega
    · rw [habs] at h2
      have h5 : (2 : ℚ) ^ f32_exponent x = 8388608 * f32_ulp x := by
        unfold f32_ulp
        rw [zpow_sub₀ (by norm_num : (2 : ℚ) ≠ 0)]
        norm_num
        ring
      have hq : ((8388608 : Int) : ℚ) ≤ x / f32_ulp x := by
        rw [le_div_iff₀ hp]
        push_cast
        rw [← h5]
        exact h2
      have := le_round_even _ _ hq
      have h3 : (8388608 : ℚ) ≤ round_even (x / f32_ulp x) := by exact_mod_cast this
      have h4 : (4 : ℚ) ≤ 2 ^ f32_exponent x := by
        have : (2 : ℚ) ^ (2 : Int) ≤ 2 ^ f32_exponent x :=
          zpow_le_zpow_right₀ (by norm_num) (by omega)
        norm_num at this
        exact this
      unfold f32
      have : (8388608 : ℚ) * f32_ulp x ≤
          (round_even (x / f32_ulp x) : ℚ) * f32_ulp x :=
        mul_le_mul_of_nonneg_right h3 (le_of_lt hp)
      linarith

/-- A value with the binade exponent e, e at least -126, has the spacing
2 ^ (e - 23). -/
theorem f32_ulp_eq (x : ℚ) (e : Int) (he : -126 ≤ e) (h1 : 2 ^ e ≤ |x|)
    (h2 : |x| < 2 ^ (e + 1)) : f32_ulp x = 2 ^ (e - 23) := by
  have hx : x ≠ 0 := by
    intro h
    rw [h, abs_zero] at h1
    have : (0 : ℚ) < 2 ^ e := by positivity
    linarith
  have a := f32_exponent_le x e hx he h2
  have b := le_f32_exponent x e h1
  unfold f32_ulp
  rw [le_antisymm a b]

/-- Evaluation of the rounding: a value in the binade of exponent e whose
quotient by the spacing is within less than one half of n rounds to n times the
spacing. -/
theorem f32_eval (x : ℚ) (e n : Int) (he : -126 ≤ e) (h1 : 2 ^ e ≤ |x|)
    (h2 : |x| < 2 ^ (e + 1)) (hn : |x / 2 ^ (e - 23) - n| < 1 / 2) :
    f32 x = n * 2 ^ (e - 23) := by
  unfold f32
  rw [f32_ulp_eq x e he h1 h2, round_even_eq n _ hn]

/-- A binary32 value, an integer below 2 ^ 24 in magnitude times a power of two
not below 2 ^ -149, is left as it is. -/
theorem f32_exact (m k : Int) (hm : |m| < 2 ^ 24) (hk : -149 ≤ k) :
    f32 (m * 2 ^ k) = m * 2 ^ k := by
  by_cases h0 : m = 0
  · subst h0
    simp [f32_zero]
  · have hx : (m : ℚ) * 2 ^ k ≠ 0 := by
      apply mul_ne_zero
      · exact_mod_cast h0
      · positivity
    have habs : |(m : ℚ) * 2 ^ k| < 2 ^ (k + 23 + 1) := by
      rw [abs_mul, abs_of_pos (by positivity : (0 : ℚ) < 2 ^ k)]
      have h24 : |(m : ℚ)| < 2 ^ 24 := by exact_mod_cast hm
      have : (2 : ℚ) ^ (k + 23 + 1) = 2 ^ 24 * 2 ^ k := by
        rw [show k + 23 + 1 = (24 : Int) + k by ring, zpow_add₀ (by norm_num : (2 : ℚ) ≠ 0)]
        norm_num
      rw [this]
      exact mul_lt_mul_of_pos_right h24 (by positivity)
    have he := f32_exponent_le _ (k + 23) hx (by omega) habs
    obtain ⟨D, hD⟩ := Int.eq_ofNat_of_zero_le (show 0 ≤ k + 23 - f32_exponent (m * 2 ^ k) by omega)
    have hq : (m : ℚ) * 2 ^ k / f32_ulp (m * 2 ^ k) = ((m * 2 ^ D : Int) : ℚ) := by
      unfold f32_ulp
      rw [mul_div_assoc, ← zpow_sub₀ (by norm_num : (2 : ℚ) ≠ 0)]
      rw [show k - (f32_exponent (m * 2 ^ k) - 23) = (D : Int) by omega]
      push_cast
      rw [zpow_natCast]
    have hr : round_even ((m : ℚ) * 2 ^ k / f32_ulp (m * 2 ^ k)) = m * 2 ^ D := by
      rw [hq]
      apply round_even_eq
      simp
    unfold f32
    rw [hr]
    unfold f32_ulp
    push_cast
    rw [mul_assoc, ← zpow_natCast, ← zpow_add₀ (by norm_num : (2 : ℚ) ≠ 0)]
    congr 2
    omega

/-- An integer below 2 ^ 24 in magnitude is a binary32 value. -/
theorem f32_intCast (n : Int) (h : |n| < 2 ^ 24) : f32 n = n := by
  have := f32_exact n 0 h (by norm_num)
  simpa using this

@[simp] theorem f32_one : f32 1 = 1 := by
  simpa using f32_intCast 1 (by norm_num)

@[simp] theorem f32_two : f32 2 = 2 := by
  simpa using f32_intCast 2 (by norm_num)

@[simp] theorem f32_three : f32 3 = 3 := by
  simpa using f32_intCast 3 (by norm_num)

/-- The error of the rounded operations of lerp on scaled operands of
magnitude at most 6553600, with a factor between 0 and 1/2. -/
theorem blend_error (A B x : ℚ) (hA : |A| ≤ 6553600) (hB : |B| ≤ 6553600)
    (hx0 : 0 ≤ x) (hx1 : x ≤ 1 / 2) :
    |f32 (f32 (f32 (f32 (1 - x) * A) + f32 (x * B)) / 100) -
      ((1 - x) * A + x * B) / 100| ≤ 3 / 100 := by
  have hu := f32_error (1 - x) 1 (by rw [abs_le]; constructor <;> linarith)
  generalize f32 (1 - x) = u at hu ⊢
  have h1A : |(1 - x) * A| ≤ 6553600 := by
    rw [abs_mul, abs_of_nonneg (by linarith : 0 ≤ 1 - x)]
    calc (1 - x) * |A| ≤ 1 * |A| := mul_le_mul_of_nonneg_right (by linarith) (abs_nonneg _)
      _ ≤ 6553600 := by linarith
  have hxB : |x * B| ≤ 3276800 := by
    rw [abs_mul, abs_of_nonneg hx0]
    calc x * |B| ≤ 1 / 2 * |B| := mul_le_mul_of_nonneg_right hx1 (abs_nonneg _)
      _ ≤ 3276800 := by linarith
  have huA : |u * A - (1 - x) * A| ≤ 2 / 5 := by
    rw [← sub_mul, abs_mul]
    calc |u - (1 - x)| * |A| ≤ (1 / 2 ^ 24 + 1 / 2 ^ 150) * 6553600 :=
          mul_le_mul hu hA (abs_nonneg _) (by positivity)
      _ ≤ 2 / 5 := by norm_num
  generalize (1 - x) * A = E1 at h1A huA ⊢
  generalize x * B = E2 at hxB ⊢
  generalize u * A = Q at huA ⊢
  rw [abs_le] at h1A hxB huA
  obtain ⟨a1, a2⟩ := h1A
  obtain ⟨b1, b2⟩ := hxB
  obtain ⟨c1, c2⟩ := huA
  have hQ : |Q| ≤ 6553601 := by
    rw [abs_le]
    constructor <;> linarith
  have hp1 : |f32 Q - Q| ≤ 2 / 5 := le_trans (f32_error Q 6553601 hQ) (by norm_num)
  generalize f32 Q = p1 at hp1 ⊢
  have hp2 : |f32 E2 - E2| ≤ 1 / 5 :=
    le_trans (f32_error E2 3276800 (by rw [abs_le]; constructor <;> linarith)) (by norm_num)
  generalize f32 E2 = p2 at hp2 ⊢
  rw [abs_le] at hp1 hp2
  obtain ⟨d1, d2⟩ := hp1
  obtain ⟨e1, e2⟩ := hp2
  have hs : |f32 (p1 + p2) - (p1 + p2)| ≤ 4 / 5 :=
    le_trans (f32_error (p1 + p2) 13107200 (by rw [abs_le]; constructor <;> linarith))
      (by norm_num)
  generalize f32 (p1 + p2) = s at hs ⊢
  rw [abs_le] at hs
  obtain ⟨f1, f2⟩ := hs
  have hr : |f32 (s / 100) - s / 100| ≤ 3 / 500 :=
    le_trans (f32_error (s / 100) 98305 (by rw [abs_le]; constructor <;> linarith))
      (by norm_num)
  generalize f32 (s / 100) = r at hr ⊢
  rw [abs_le] at hr ⊢
  obtain ⟨g1, g2⟩ := hr
  constructor <;> linarith

/-- The binary32 blend of two integers of magnitude at most 65536 with a factor
between 0 and 1/2 is within 3/100 of the exact blend. -/
theorem lerp_error (a b : Int) (x : ℚ) (ha : |a| ≤ 65536) (hb : |b| ≤ 65536)
    (hx0 : 0 ≤ x) (hx1 : x ≤ 1 / 2) :
    |lerp a b x - (a + x * (b - a))| ≤ 3 / 100 := by
  have hA : f32 ((a : ℚ) * 100) = a * 100 := by
    have := f32_intCast (a * 100) (by rw [abs_mul]; norm_num; omega)
    simpa using this
  have hB : f32 ((b : ℚ) * 100) = b * 100 := by
    have := f32_intCast (b * 100) (by rw [abs_mul]; norm_num; omega)
    simpa using this
  have haq : |(a : ℚ) * 100| ≤ 6553600 := by
    have : |(a : ℚ)| ≤ 65536 := by exact_mod_cast ha
    rw [abs_mul]
    norm_num
    linarith
  have hbq : |(b : ℚ) * 100| ≤ 6553600 := by
    have : |(b : ℚ)| ≤ 65536 := by exact_mod_cast hb
    rw [abs_mul]
    norm_num
    linarith
  have := blend_error _ _ x haq hbq hx0 hx1
  simp only [lerp, hA, hB]
  have e : ((1 - x) * ((a : ℚ) * 100) + x * ((b : ℚ) * 100)) / 100 = a + x * (b - a) := by
    ring
  rw [e] at this
  exact this

/-- The rounded timer reaches the threshold when the exact sum does. -/
theorem f32_reset_le (x : ℚ) (h : RESET_INTERVAL_SEC ≤ x) : RESET_INTERVAL_SEC ≤ f32 x := by
  unfold RESET_INTERVAL_SEC at *
  exact f32_three_le x h

/-- The float 4. -/
theorem f32_four : f32 4 = 4 := by
  have h := f32_exact 1 2 (by norm_num) (by norm_num)
  norm_num at h
  exact h

/-- Rounding to binary32 does not take a value between 0 and 15/32 above
15/32. -/
theorem f32_le_factor (x : ℚ) (h0 : 0 ≤ x) (h : x ≤ 15 / 32) : f32 x ≤ 15 / 32 := by
  by_cases hx : x = 0
  · subst hx
    rw [f32_zero]
    norm_num
  · have habs : |x| = x := abs_of_nonneg h0
    have he : f32_exponent x ≤ -2 :=
      f32_exponent_le x (-2) hx (by norm_num) (by rw [habs]; norm_num; linarith)
    have hp := f32_ulp_pos x
    obtain ⟨j, hj⟩ : ∃ j : Nat, (j : Int) = 18 - f32_exponent x :=
      ⟨(18 - f32_exponent x).toNat, by omega⟩
    have hu : ((15 * 2 ^ j : Int) : ℚ) * f32_ulp x = 15 / 32 := by
      unfold f32_ulp
      push_cast
      rw [mul_assoc, ← zpow_natCast, hj, ← zpow_add₀ (by norm_num : (2 : ℚ) ≠ 0)]
      rw [show 18 - f32_exponent x + (f32_exponent x - 23) = -5 by ring]
      norm_num
    have hq : x / f32_ulp x ≤ ((15 * 2 ^ j : Int) : ℚ) := by
      rw [div_le_iff₀ hp, hu]
      exact h
    have hr := round_even_le _ _ hq
    have hr2 : (round_even (x / f32_ulp x) : ℚ) ≤ ((15 * 2 ^ j : Int) : ℚ) := by
      exact_mod_cast hr
    unfold f32
    rw [← hu]
    exact mul_le_mul_of_nonneg_right hr2 (le_of_lt hp)

/-- Rounding to binary32 in a known binade, from the rounding of the scaled
value to an integer. -/
theorem f32_of_round (x : ℚ) (e n : Int) (he : -126 ≤ e) (h1 : 2 ^ e ≤ |x|)
    (h2 : |x| < 2 ^ (e + 1)) (hn : round_even (x / 2 ^ (e - 23)) = n) :
    f32 x = n * 2 ^ (e - 23) := by
  unfold f32
  rw [f32_ulp_eq x e he h1 h2, hn]

/-- A tie between two integers goes to the even one. -/
theorem round_even_tie (n : Int) :
    round_even (n + 1 / 2) = if n % 2 = 0 then n else n + 1 := by
  have hf : ⌊(n : ℚ) + 1 / 2⌋ = n := by
    rw [Int.floor_eq_iff]
    constructor <;> linarith
  unfold round_even
  rw [hf]
  have e : (n : ℚ) + 1 / 2 - n = 1 / 2 := by ring
  rw [e]
  simp

/-! ## Frame lemmas of the tick phases -/

/-- The resolver writes target only. -/
theorem resolve_target_frame (os : host) (c : duplicator_capture) :
    ∃ t : region_t, resolve_target os c = { c with target := t } := by
  simp only [resolve_target]
  split
  · exact ⟨_, rfl⟩
  · split
    · exact ⟨_, rfl⟩
    · exact ⟨c.target, rfl⟩

/-- The smoother writes capture only. -/
theorem smooth_capture_frame (c : duplicator_capture) (seconds : ℚ) :
    ∃ r : region_t, smooth_capture c seconds = { c with capture := r } := by
  unfold smooth_capture
  split
  · exact ⟨_, rfl⟩
  · exact ⟨c.capture, rfl⟩

/-- The window-follow phase of a tick writes target and capture only. -/
theorem track_foreground_window_frame (os : host) (c : duplicator_capture) (seconds : ℚ) :
    ∃ t r : region_t,
      track_foreground_window os c seconds = { c with target := t, capture := r } := by
  unfold track_foreground_window
  split
  · obtain ⟨t, ht⟩ := resolve_target_frame os c
    obtain ⟨r, hr⟩ := smooth_capture_frame (resolve_target os c) seconds
    exact ⟨t, r, by rw [hr, ht]⟩
  · exact ⟨c.target, c.capture, rfl⟩

/-- Outside window-follow mode the first phase of a tick does nothing. -/
theorem track_foreground_window_off (os : host) (c : duplicator_capture) (seconds : ℚ)
    (h : c.capture_foreground_window = false) :
    track_foreground_window os c seconds = c := by
  simp [track_foreground_window, h]

@[simp] theorem track_showing (os : host) (c : duplicator_capture) (seconds : ℚ) :
    (track_foreground_window os c seconds).showing = c.showing := by
  obtain ⟨t, r, h⟩ := track_foreground_window_frame os c seconds
  rw [h]

@[simp] theorem track_duplicator (os : host) (c : duplicator_capture) (seconds : ℚ) :
    (track_foreground_window os c seconds).duplicator = c.duplicator := by
  obtain ⟨t, r, h⟩ := track_foreground_window_frame os c seconds
  rw [h]

@[simp] theorem track_reset_timeout (os : host) (c : duplicator_capture) (seconds : ℚ) :
    (track_foreground_window os c seconds).reset_timeout = c.reset_timeout := by
  obtain ⟨t, r, h⟩ := track_foreground_window_frame os c seconds
  rw [h]

@[simp] theorem track_monitor (os : host) (c : duplicator_capture) (seconds : ℚ) :
    (track_foreground_window os c seconds).monitor = c.monitor := by
  obtain ⟨t, r, h⟩ := track_foreground_window_frame os c seconds
  rw [h]

@[simp] theorem track_follow (os : host) (c : duplicator_capture) (seconds : ℚ) :
    (track_foreground_window os c seconds).capture_foreground_window =
      c.capture_foreground_window := by
  obtain ⟨t, r, h⟩ := track_foreground_window_frame os c seconds
  rw [h]

@[simp] theorem track_display (os : host) (c : duplicator_capture) (seconds : ℚ) :
    (track_foreground_window os c seconds).display = c.display := by
  obtain ⟨t, r, h⟩ := track_foreground_window_frame os c seconds
  rw [h]

@[simp] theorem track_rot (os : host) (c : duplicator_capture) (seconds : ℚ) :
    (track_foreground_window os c seconds).rot = c.rot := by
  obtain ⟨t, r, h⟩ := track_foreground_window_frame os c seconds
  rw [h]

/-! ## The steps of a tick, case by case -/

/-- A tick while the host does not show the source. -/
theorem tick_hidden (os : host) (c : duplicator_capture) (seconds : ℚ)
    (h : os.obs_source_showing = false) :
    duplicator_capture_tick os c seconds =
      if c.showing then
        ({ (free_capture_data os (track_foreground_window os c seconds)).1 with
            showing := false },
          [gs_call.duplicator_destroy c.duplicator])
      else (track_foreground_window os c seconds, []) := by
  simp [duplicator_capture_tick, h, free_capture_data]

/-- A tick while the host shows the source: timer gate, acquisition, frame
pull. -/
theorem tick_shown (os : host) (c : duplicator_capture) (seconds : ℚ)
    (h : os.obs_source_showing = true) :
    duplicator_capture_tick os c seconds =
      ({ (pull_frame os (acquire_duplicator os
            (prime_reset_timeout (track_foreground_window os c seconds)) seconds).1).1 with
          showing := true },
        (acquire_duplicator os
            (prime_reset_timeout (track_foreground_window os c seconds)) seconds).2 ++
        (pull_frame os (acquire_duplicator os
            (prime_reset_timeout (track_foreground_window os c seconds)) seconds).1).2) := by
  simp [duplicator_capture_tick, h]

/-- A frame pull without a duplicator does nothing. -/
theorem pull_frame_none (os : host) (c : duplicator_capture) (h : c.duplicator = none) :
    pull_frame os c = (c, []) := by
  simp [pull_frame, h]

/-- A failed frame pull frees the capture data. -/
theorem pull_frame_fail (os : host) (c : duplicator_capture) (d : Nat)
    (h : c.duplicator = some d) (hu : os.gs_duplicator_update_frame d = false) :
    pull_frame os c =
      ((free_capture_data os (capture_cursor_state os c)).1,
        [gs_call.duplicator_update_frame d, gs_call.duplicator_destroy (some d)]) := by
  simp [pull_frame, h, hu, free_capture_data, capture_cursor_state]

/-- A successful frame pull on a capture of width 0 reads the monitor geometry. -/
theorem pull_frame_reset (os : host) (c : duplicator_capture) (d : Nat)
    (h : c.duplicator = some d) (hu : os.gs_duplicator_update_frame d = true)
    (hw : c.capture.width = 0) :
    pull_frame os c =
      (reset_capture_data os (capture_cursor_state os c),
        [gs_call.duplicator_update_frame d]) := by
  simp [pull_frame, h, hu, hw, capture_cursor_state]

/-- A successful frame pull on a capture of known width keeps the geometry. -/
theorem pull_frame_keep (os : host) (c : duplicator_capture) (d : Nat)
    (h : c.duplicator = some d) (hu : os.gs_duplicator_update_frame d = true)
    (hw : c.capture.width ≠ 0) :
    pull_frame os c = (capture_cursor_state os c, [gs_call.duplicator_update_frame d]) := by
  simp [pull_frame, h, hu, hw, capture_cursor_state]

/-- Acquisition with a duplicator in hand does nothing. -/
theorem acquire_duplicator_held (os : host) (c : duplicator_capture) (seconds : ℚ) (d : Nat)
    (h : c.duplicator = some d) : acquire_duplicator os c seconds = (c, []) := by
  simp [acquire_duplicator, h]

/-- Acquisition without a duplicator: one attempt once the timer reaches the
threshold, none before. -/
theorem acquire_duplicator_none (os : host) (c : duplicator_capture) (seconds : ℚ)
    (h : c.duplicator = none) :
    acquire_duplicator os c seconds =
      if RESET_INTERVAL_SEC ≤ f32 (c.reset_timeout + seconds) then
        ({ c with duplicator := os.gs_duplicator_create c.monitor, reset_timeout := 0 },
          [gs_call.duplicator_create c.monitor])
      else ({ c with reset_timeout := f32 (c.reset_timeout + seconds) }, []) := by
  simp [acquire_duplicator, h]

/-- What a frame pull guarantees for the invariant. -/
theorem pull_frame_inv (os : host) (c : duplicator_capture) :
    (pull_frame os c).1.capture_foreground_window = c.capture_foreground_window ∧
    (c.capture = c.display → (pull_frame os c).1.capture = (pull_frame os c).1.display) ∧
    (c.target = region_zero → (pull_frame os c).1.target = region_zero) ∧
    ((pull_frame os c).1.duplicator = none →
      (c.capture = region_zero ∧ c.display = region_zero ∧ c.rot = 0) →
      (pull_frame os c).1.capture = region_zero ∧ (pull_frame os c).1.display = region_zero ∧
        (pull_frame os c).1.rot = 0) ∧
    (c.duplicator ≠ none → (pull_frame os c).1.duplicator = none →
      (pull_frame os c).1.capture = region_zero ∧ (pull_frame os c).1.display = region_zero ∧
        (pull_frame os c).1.rot = 0) := by
  cases hd : c.duplicator with
  | none => simp [pull_frame_none os c hd, hd]
  | some d =>
    cases hu : os.gs_duplicator_update_frame d
    · simp [pull_frame_fail os c d hd hu, free_capture_data, capture_cursor_state]
    · by_cases hw : c.capture.width = 0
      · simp [pull_frame_reset os c d hd hu hw, reset_capture_data, capture_cursor_state, hd]
      · simp [pull_frame_keep os c d hd hu hw, capture_cursor_state, hd]

/-- The acquisition step leaves the geometry and the flags alone, and never
drops a duplicator. -/
theorem acquire_duplicator_frame (os : host) (c : duplicator_capture) (seconds : ℚ) :
    (acquire_duplicator os c seconds).1.capture = c.capture ∧
    (acquire_duplicator os c seconds).1.target = c.target ∧
    (acquire_duplicator os c seconds).1.display = c.display ∧
    (acquire_duplicator os c seconds).1.rot = c.rot ∧
    (acquire_duplicator os c seconds).1.capture_foreground_window =
      c.capture_foreground_window ∧
    (acquire_duplicator os c seconds).1.monitor = c.monitor ∧
    ((acquire_duplicator os c seconds).1.duplicator = none → c.duplicator = none) := by
  cases hd : c.duplicator with
  | some d => simp [acquire_duplicator_held os c seconds d hd, hd]
  | none =>
    rw [acquire_duplicator_none os c seconds hd]
    split <;> simp

/-! ## The session invariant and reachability -/

/-- The invariant holds after update_settings. -/
theorem session_inv_update (c : duplicator_capture) (settings : obs_data) :
    session_inv (update_settings c settings).1 := by
  simp [session_inv, update_settings]

/-- The invariant is kept by a tick. -/
theorem session_inv_tick (os : host) (c : duplicator_capture) (seconds : ℚ)
    (h : session_inv c) : session_inv (duplicator_capture_tick os c seconds).1 := by
  obtain ⟨h1, h2, h3⟩ := h
  cases ho : os.obs_source_showing
  · rw [tick_hidden os c seconds ho]
    cases hs : c.showing
    · have hd := h1 hs
      refine ⟨fun _ => by simpa using hd, fun hf => ?_, fun hf _ => ?_⟩
      · simp only [Bool.false_eq_true, if_false] at hf ⊢
        rw [track_follow] at hf
        rw [track_foreground_window_off os c seconds hf]
        exact h2 hf
      · simp only [Bool.false_eq_true, if_false] at hf ⊢
        rw [track_follow] at hf
        rw [track_foreground_window_off os c seconds hf]
        exact h3 hf hd
    · simp [session_inv, free_capture_data]
  · rw [tick_shown os c seconds ho]
    generalize hc2 : prime_reset_timeout (track_foreground_window os c seconds) = c2
    have hfl : c2.capture_foreground_window = c.capture_foreground_window := by
      rw [← hc2]; simp [prime_reset_timeout]
    have hdup : c2.duplicator = c.duplicator := by
      rw [← hc2]; simp [prime_reset_timeout]
    have hoff : c.capture_foreground_window = false →
        c2.capture = c.capture ∧ c2.display = c.display ∧ c2.target = c.target ∧
          c2.rot = c.rot := by
      intro hf
      rw [← hc2, track_foreground_window_off os c seconds hf]
      simp [prime_reset_timeout]
    obtain ⟨a1, a2, a3, a4, a5, a6, a7⟩ := acquire_duplicator_frame os c2 seconds
    obtain ⟨p1, p2, p3, p4, p5⟩ := pull_frame_inv os (acquire_duplicator os c2 seconds).1
    refine ⟨fun hsh => by simp at hsh, fun hf => ?_, fun hf hn => ?_⟩
    · simp only [p1, a5, hfl] at hf
      obtain ⟨q1, q2, q3, q4⟩ := hoff hf
      obtain ⟨r1, r2⟩ := h2 hf
      exact ⟨p2 (by rw [a1, a3, q1, q2, r1]), p3 (by rw [a2, q3, r2])⟩
    · simp only [p1, a5, hfl] at hf
      simp only at hn
      obtain ⟨q1, q2, q3, q4⟩ := hoff hf
      by_cases han : (acquire_duplicator os c2 seconds).1.duplicator = none
      · have hcn : c.duplicator = none := by rw [← hdup]; exact a7 han
        obtain ⟨r1, r2, r3⟩ := h3 hf hcn
        exact p4 hn ⟨by rw [a1, q1, r1], by rw [a3, q2, r2], by rw [a4, q4, r3]⟩
      · exact p5 han hn

/-- The invariant is kept by every call of the host. -/
theorem session_inv_apply (call : host_call) (c : duplicator_capture) (h : session_inv c) :
    session_inv (call.apply c).1 := by
  cases call with
  | update settings => exact session_inv_update c settings
  | video_tick os seconds => exact session_inv_tick os c seconds h

/-- The invariant is kept by every sequence of calls. -/
theorem session_inv_run (calls : List host_call) (c : duplicator_capture)
    (h : session_inv c) : session_inv (run_calls calls c).1 := by
  induction calls generalizing c with
  | nil => exact h
  | cons call rest ih => exact ih _ (session_inv_apply call c h)

/-- Every reachable session satisfies the invariant. -/
theorem session_inv_of_reachable (c : duplicator_capture) (h : Reachable c) :
    session_inv c := by
  obtain ⟨settings, source, calls, rfl⟩ := h
  exact session_inv_run calls _ (session_inv_update _ settings)

/-- The session right after create is reachable. -/
theorem reachable_create (settings : obs_data) (source : Nat) :
    Reachable (duplicator_capture_create settings source).1 :=
  ⟨settings, source, [], rfl⟩

/-- A tick leads from a reachable session to a reachable session. -/
theorem reachable_tick (os : host) (c : duplicator_capture) (seconds : ℚ)
    (h : Reachable c) : Reachable (duplicator_capture_tick os c seconds).1 := by
  obtain ⟨settings, source, calls, rfl⟩ := h
  refine ⟨settings, source, calls ++ [host_call.video_tick os seconds], ?_⟩
  generalize (duplicator_capture_create settings source).1 = c0
  induction calls generalizing c0 with
  | nil => rfl
  | cons call rest ih => exact ih _

/-- An update leads from a reachable session to a reachable session. -/
theorem reachable_update (c : duplicator_capture) (settings : obs_data)
    (h : Reachable c) : Reachable (duplicator_capture_update c settings).1 := by
  obtain ⟨settings0, source, calls, rfl⟩ := h
  refine ⟨settings0, source, calls ++ [host_call.update settings], ?_⟩
  generalize (duplicator_capture_create settings0 source).1 = c0
  induction calls generalizing c0 with
  | nil => rfl
  | cons call rest ih => exact ih _

/-! ## The log of a tick -/

/-- The acquisition step logs creation attempts only. -/
theorem acquire_duplicator_log (os : host) (c : duplicator_capture) (seconds : ℚ) (d : Nat) :
    gs_call.duplicator_update_frame d ∉ (acquire_duplicator os c seconds).2 := by
  cases hd : c.duplicator with
  | some k => simp [acquire_duplicator_held os c seconds k hd]
  | none =>
    rw [acquire_duplicator_none os c seconds hd]
    split <;> simp

/-- A frame pull logged for a duplicator is a pull on the duplicator held. -/
theorem pull_frame_log (os : host) (c : duplicator_capture) (d : Nat)
    (h : gs_call.duplicator_update_frame d ∈ (pull_frame os c).2) :
    c.duplicator = some d := by
  cases hd : c.duplicator with
  | none => simp [pull_frame_none os c hd] at h
  | some k =>
    cases hu : os.gs_duplicator_update_frame k
    · rw [pull_frame_fail os c k hd hu] at h
      simp at h
      rw [h]
    · by_cases hw : c.capture.width = 0
      · rw [pull_frame_reset os c k hd hu hw] at h
        simp at h
        rw [h]
      · rw [pull_frame_keep os c k hd hu hw] at h
        simp at h
        rw [h]

/-- The frame pull logs the pull it makes on a held duplicator. -/
theorem pull_frame_logs (os : host) (c : duplicator_capture) (d : Nat)
    (h : c.duplicator = some d) :
    gs_call.duplicator_update_frame d ∈ (pull_frame os c).2 := by
  cases hu : os.gs_duplicator_update_frame d
  · simp [pull_frame_fail os c d h hu]
  · by_cases hw : c.capture.width = 0
    · simp [pull_frame_reset os c d h hu hw]
    · simp [pull_frame_keep os c d h hu hw]

/-- A frame pull logged by a tick was made on the duplicator in hand after the
acquisition step. -/
theorem tick_pull_log (os : host) (c : duplicator_capture) (seconds : ℚ) (d : Nat)
    (ho : os.obs_source_showing = true)
    (h : gs_call.duplicator_update_frame d ∈ (duplicator_capture_tick os c seconds).2) :
    (acquire_duplicator os (prime_reset_timeout (track_foreground_window os c seconds))
      seconds).1.duplicator = some d := by
  rw [tick_shown os c seconds ho] at h
  rcases List.mem_append.1 h with h | h
  · exact absurd h (acquire_duplicator_log _ _ _ _)
  · exact pull_frame_log _ _ _ h

/-! ## The target resolver -/

/-- A window on another monitor, or without a caption style bit, is not valid. -/
theorem is_valid_window_false (os : host) (c : duplicator_capture) (hwnd : HWND)
    (h : os.MonitorFromPoint { x := c.display.x, y := c.display.y } ≠ os.MonitorFromWindow hwnd ∨
      os.GetWindowLong_STYLE hwnd &&& WS_CAPTION = 0) :
    is_valid_window os c hwnd = false := by
  simp only [is_valid_window]
  rcases h with h | h
  · simp [h]
  · simp [h]

/-- With a disqualified foreground window the window-follow phase leaves target
equal to display. -/
theorem track_target_invalid (os : host) (c : duplicator_capture) (seconds : ℚ)
    (hf : c.capture_foreground_window = true)
    (hv : is_valid_window os c (top_level_window os.GetForegroundWindow) = false) :
    (track_foreground_window os c seconds).target = c.display := by
  have hres : resolve_target os c = { c with target := c.display } := by
    simp [resolve_target, hv]
  obtain ⟨r, hr⟩ := smooth_capture_frame (resolve_target os c) seconds
  simp only [track_foreground_window, hf, if_true]
  rw [hr, hres]

/-! ## Reading and keeping the monitor geometry -/

/-- A tick that returns holding a duplicator pulled a frame from it with
success. -/
theorem tick_result_held (os : host) (c : duplicator_capture) (seconds : ℚ) (d : Nat)
    (ho : os.obs_source_showing = true)
    (h : (duplicator_capture_tick os c seconds).1.duplicator = some d) :
    gs_call.duplicator_update_frame d ∈ (duplicator_capture_tick os c seconds).2 ∧
      os.gs_duplicator_update_frame d = true := by
  rw [tick_shown os c seconds ho] at h ⊢
  generalize acquire_duplicator os
    (prime_reset_timeout (track_foreground_window os c seconds)) seconds = a at *
  simp only at h
  cases hd : a.1.duplicator with
  | none => rw [pull_frame_none os a.1 hd, hd] at h; cases h
  | some k =>
    cases hu : os.gs_duplicator_update_frame k
    · rw [pull_frame_fail os a.1 k hd hu] at h
      simp [free_capture_data] at h
    · have hk : k = d := by
        by_cases hw : a.1.capture.width = 0
        · rw [pull_frame_reset os a.1 k hd hu hw] at h
          simpa [reset_capture_data, capture_cursor_state, hd] using h
        · rw [pull_frame_keep os a.1 k hd hu hw] at h
          simpa [capture_cursor_state, hd] using h
      subst hk
      exact ⟨List.mem_append_right _ (pull_frame_logs os a.1 k hd), hu⟩

/-- The geometry a tick reads from the monitor: after a successful frame pull
on a capture of width 0, display and capture hold the monitor position and the
texture size, rot the monitor rotation, and target is as the window-follow phase
left it. -/
theorem tick_reads_geometry (os : host) (c : duplicator_capture) (seconds : ℚ) (d : Nat)
    (info : gs_monitor_info) (tex : gs_texture)
    (ho : os.obs_source_showing = true)
    (hp : gs_call.duplicator_update_frame d ∈ (duplicator_capture_tick os c seconds).2)
    (hu : os.gs_duplicator_update_frame d = true)
    (hw : (track_foreground_window os c seconds).capture.width = 0)
    (hinfo : os.gs_get_duplicator_monitor_info c.monitor = some info)
    (htex : os.gs_duplicator_get_texture d = some tex) :
    (duplicator_capture_tick os c seconds).1.display =
        { x := info.x, y := info.y, width := tex.width, height := tex.height } ∧
      (duplicator_capture_tick os c seconds).1.capture =
        { x := info.x, y := info.y, width := tex.width, height := tex.height } ∧
      (duplicator_capture_tick os c seconds).1.rot = info.rotation_degrees ∧
      (duplicator_capture_tick os c seconds).1.target =
        (track_foreground_window os c seconds).target := by
  have hd := tick_pull_log os c seconds d ho hp
  obtain ⟨a1, a2, a3, a4, a5, a6, a7⟩ := acquire_duplicator_frame os
    (prime_reset_timeout (track_foreground_window os c seconds)) seconds
  rw [tick_shown os c seconds ho]
  generalize acquire_duplicator os
    (prime_reset_timeout (track_foreground_window os c seconds)) seconds = a at *
  have hwa : a.1.capture.width = 0 := by rw [a1]; simpa [prime_reset_timeout] using hw
  have hm : a.1.monitor = c.monitor := by rw [a6]; simp [prime_reset_timeout]
  have ht : a.1.target = (track_foreground_window os c seconds).target := by
    rw [a2]; simp [prime_reset_timeout]
  rw [pull_frame_reset os a.1 d hd hu hwa]
  simp [reset_capture_data, capture_cursor_state, hd, hm, hinfo, htex, ht]

/-- The log of the first tick of the example session when creation and the
frame pull succeed. -/
theorem example_first_tick_log :
    (duplicator_capture_tick (example_host true (some 5) true) example_session 0).2 =
      [gs_call.duplicator_create 0, gs_call.duplicator_update_frame 5] := by
  simp [duplicator_capture_tick, example_session, example_settings, example_host,
    duplicator_capture_create, update_settings, track_foreground_window, acquire_duplicator,
    pull_frame, prime_reset_timeout, reset_capture_data, capture_cursor_state,
    RESET_INTERVAL_SEC, bzalloc_capture, obs_data_get_bool, obs_data_get_int, obs_data_item,
    region_zero, to_long]

/-- Outside window-follow mode a tick on a held duplicator with a capture of
known width either drops the duplicator or keeps capture and rot. -/
theorem tick_keeps_geometry (os : host) (c : duplicator_capture) (seconds : ℚ) (d : Nat)
    (hf : c.capture_foreground_window = false) (hd : c.duplicator = some d)
    (hw : c.capture.width ≠ 0) :
    (duplicator_capture_tick os c seconds).1.capture_foreground_window = false ∧
    ((duplicator_capture_tick os c seconds).1.duplicator = none ∨
      ((duplicator_capture_tick os c seconds).1.duplicator = some d ∧
        (duplicator_capture_tick os c seconds).1.capture = c.capture ∧
        (duplicator_capture_tick os c seconds).1.rot = c.rot)) := by
  cases ho : os.obs_source_showing
  · rw [tick_hidden os c seconds ho, track_foreground_window_off os c seconds hf]
    cases hs : c.showing
    · simp [hf, hd]
    · simp [free_capture_data, hf]
  · rw [tick_shown os c seconds ho, track_foreground_window_off os c seconds hf,
      acquire_duplicator_held os _ seconds d (by simpa [prime_reset_timeout] using hd)]
    cases hu : os.gs_duplicator_update_frame d
    · rw [pull_frame_fail os _ d (by simpa [prime_reset_timeout] using hd) hu]
      simp [free_capture_data, prime_reset_timeout, capture_cursor_state, hf]
    · rw [pull_frame_keep os _ d (by simpa [prime_reset_timeout] using hd) hu
        (by simpa [prime_reset_timeout] using hw)]
      simp [prime_reset_timeout, capture_cursor_state, hf, hd]

/-- Outside window-follow mode, while the duplicator stays held the capture
and the rotation do not change. -/
theorem run_keeps_geometry (calls : List host_call) (c : duplicator_capture) (d : Nat)
    (hf : c.capture_foreground_window = false) (hd : c.duplicator = some d)
    (hw : c.capture.width ≠ 0) (hh : stays_held calls c = true) :
    (run_calls calls c).1.capture = c.capture ∧ (run_calls calls c).1.rot = c.rot := by
  induction calls generalizing c with
  | nil => exact ⟨rfl, rfl⟩
  | cons call rest ih =>
    simp only [stays_held, Bool.and_eq_true] at hh
    obtain ⟨h1, h2⟩ := hh
    cases call with
    | update settings =>
      simp [host_call.apply, duplicator_capture_update, update_settings] at h1
    | video_tick os seconds =>
      simp only [host_call.apply] at h1 h2
      obtain ⟨k1, k2⟩ := tick_keeps_geometry os c seconds d hf hd hw
      rcases k2 with k2 | ⟨k2, k3, k4⟩
      · rw [k2] at h1; cases h1
      · have := ih (duplicator_capture_tick os c seconds).1 k1 k2 (by rw [k3]; exact hw) h2
        simp only [run_calls, host_call.apply]
        rw [this.1, this.2, k3, k4]
        exact ⟨rfl, rfl⟩

/-! ## The retry timer -/

/-- A tick on a shown session without duplicator whose creation attempt, if
made, fails: the timer counts up, or restarts from 0 with one attempt logged. -/
theorem tick_retry (os : host) (c : duplicator_capture) (seconds : ℚ)
    (ho : os.obs_source_showing = true) (hc : ∀ m, os.gs_duplicator_create m = none)
    (hd : c.duplicator = none) (hs : c.showing = true) :
    (duplicator_capture_tick os c seconds).1.duplicator = none ∧
    (duplicator_capture_tick os c seconds).1.showing = true ∧
    (duplicator_capture_tick os c seconds).1.reset_timeout =
      (if RESET_INTERVAL_SEC ≤ f32 (c.reset_timeout + seconds) then 0
        else f32 (c.reset_timeout + seconds)) ∧
    creation_attempts (duplicator_capture_tick os c seconds).2 =
      (if RESET_INTERVAL_SEC ≤ f32 (c.reset_timeout + seconds) then 1 else 0) := by
  rw [tick_shown os c seconds ho]
  rw [acquire_duplicator_none _ _ _ (by simpa [prime_reset_timeout] using hd)]
  have ht : (prime_reset_timeout (track_foreground_window os c seconds)).reset_timeout =
      c.reset_timeout := by simp [prime_reset_timeout, hs]
  rw [ht]
  by_cases hle : RESET_INTERVAL_SEC ≤ f32 (c.reset_timeout + seconds)
  · simp only [hle, if_true]
    rw [pull_frame_none _ _ (by simp [hc])]
    simp [creation_attempts, gs_call.is_create, hc]
  · simp only [hle, if_false]
    rw [pull_frame_none _ _ (by simpa [prime_reset_timeout] using hd)]
    simp [creation_attempts, prime_reset_timeout, hd, hs]

/-- Attempts over a run of failing ticks that starts j ticks into an interval
of k ticks, k being the first tick count at which the timer reaches the
threshold. -/
theorem retry_attempts_from (hosts : List host) (d : ℚ) (k : Nat)
    (hk : RESET_INTERVAL_SEC ≤ timer_sum d k)
    (hlt : ∀ j, j < k → timer_sum d j < RESET_INTERVAL_SEC)
    (hh : ∀ os ∈ hosts, os.obs_source_showing = true ∧ ∀ m, os.gs_duplicator_create m = none)
    (c : duplicator_capture) (j : Nat) (hj : j < k)
    (hdup : c.duplicator = none) (hs : c.showing = true)
    (ht : c.reset_timeout = timer_sum d j) :
    creation_attempts (run_calls (ticks_of hosts d) c).2 = (j + hosts.length) / k := by
  have hk0 : timer_sum d 0 = 0 := rfl
  induction hosts generalizing c j with
  | nil => simp [ticks_of, run_calls, creation_attempts, Nat.div_eq_of_lt hj]
  | cons os rest ih =>
    obtain ⟨ho, hc⟩ := hh os (List.mem_cons_self _ _)
    have hrest : ∀ os ∈ rest, os.obs_source_showing = true ∧
        ∀ m, os.gs_duplicator_create m = none :=
      fun o ho => hh o (List.mem_cons_of_mem _ ho)
    obtain ⟨t1, t2, t3, t4⟩ := tick_retry os c d ho hc hdup hs
    have hsum : f32 (c.reset_timeout + d) = timer_sum d (j + 1) := by
      rw [ht]; rfl
    rw [hsum] at t3 t4
    simp only [ticks_of, List.map_cons, run_calls, host_call.apply, creation_attempts,
      List.countP_append, List.length_cons]
    simp only [creation_attempts, ticks_of] at ih t4
    by_cases hjk : j + 1 = k
    · have hle : RESET_INTERVAL_SEC ≤ timer_sum d (j + 1) := by rw [hjk]; exact hk
      simp only [hle, if_true] at t3 t4
      rw [t4, ih hrest _ 0 (by omega) t1 t2 (by rw [t3, hk0])]
      rw [← hjk, show j + (rest.length + 1) = rest.length + (j + 1) by omega,
        Nat.add_div_right _ (by omega)]
      simp [Nat.add_comm]
    · have hlt2 : ¬ RESET_INTERVAL_SEC ≤ timer_sum d (j + 1) :=
        not_le.2 (hlt (j + 1) (by omega))
      simp only [hlt2, if_false] at t3 t4
      rw [t4, ih hrest _ (j + 1) (by omega) t1 t2 (by rw [t3])]
      rw [show j + (rest.length + 1) = j + 1 + rest.length by omega]
      simp
/-- The timer sums of ticks of 1 second: 1, 2, 3. -/
theorem timer_sum_one : timer_sum 1 1 = 1 ∧ timer_sum 1 2 = 2 ∧ timer_sum 1 3 = 3 := by
  have h1 : timer_sum 1 1 = 1 := by simp [timer_sum]
  have h2 : timer_sum 1 2 = 2 := by
    rw [show timer_sum 1 2 = f32 (timer_sum 1 1 + 1) from rfl, h1]; norm_num
  have h3 : timer_sum 1 3 = 3 := by
    rw [show timer_sum 1 3 = f32 (timer_sum 1 2 + 1) from rfl, h2]; norm_num
  exact ⟨h1, h2, h3⟩

/-- The timer sums of ticks of 2 seconds: 2, 4. -/
theorem timer_sum_two : timer_sum 2 1 = 2 ∧ timer_sum 2 2 = 4 := by
  have h1 : timer_sum 2 1 = 2 := by simp [timer_sum]
  have h2 : timer_sum 2 2 = 4 := by
    rw [show timer_sum 2 2 = f32 (timer_sum 2 1 + 2) from rfl, h1]
    norm_num [f32_four]
  exact ⟨h1, h2⟩

/-- The session left by a failed first attempt: no duplicator, showing, timer 0. -/
theorem failed_session_state :
    failed_session.duplicator = none ∧ failed_session.showing = true ∧
      failed_session.reset_timeout = 0 := by
  simp [failed_session, duplicator_capture_tick, example_session, example_settings,
    example_host, duplicator_capture_create, update_settings, track_foreground_window,
    acquire_duplicator, pull_frame, prime_reset_timeout, RESET_INTERVAL_SEC, bzalloc_capture,
    obs_data_get_bool, obs_data_get_int, obs_data_item, region_zero, to_long]

/-- Every host of a list of copies of the failing example host shows the source
and fails to create a duplicator. -/
theorem failing_hosts (n : Nat) :
    ∀ os ∈ List.replicate n (example_host true none true),
      os.obs_source_showing = true ∧ ∀ m, os.gs_duplicator_create m = none := by
  intro os h
  rw [List.eq_of_mem_replicate h]
  exact ⟨rfl, fun _ => rfl⟩

/-! ## The region smoother -/

/-- The C round of q is within one half of q. -/
theorem c_round_bounds (q : ℚ) : q - 1 / 2 ≤ c_round q ∧ (c_round q : ℚ) ≤ q + 1 / 2 := by
  unfold c_round
  split
  · constructor
    · have := Int.lt_floor_add_one (q + 1 / 2)
      linarith
    · exact Int.floor_le _
  · constructor
    · exact Int.le_ceil _
    · have := Int.ceil_lt_add_one (q - 1 / 2)
      linarith

/-- The conversion to long keeps a value in the range of long. -/
theorem to_long_id (z : Int) (h1 : -2 ^ 31 ≤ z) (h2 : z < 2 ^ 31) : to_long z = z := by
  unfold to_long
  omega

/-- The conversion to uint32_t keeps a value that is not negative and in range. -/
theorem to_uint32_id (z : Int) (h1 : 0 ≤ z) (h2 : z < 2 ^ 31) : (to_uint32 z : Int) = z := by
  unfold to_uint32
  omega

/-- Regions at distance 0 are equal. -/
theorem region_gap_zero (t c : region_t) (h : region_gap t c = 0) : c = t := by
  cases t
  cases c
  simp only [region_gap] at h
  simp only [region_t.mk.injEq]
  omega

/-- What a closer field value gives: it lies between the old value and the
target, its distance to the target drops by at least 1, and it keeps bounds
that the old value and the target share. -/
theorem closer_facts (t c r : Int) (h : closer t c r) :
    between t c r ∧ (t - r).natAbs ≤ (t - c).natAbs - 1 ∧
      (∀ lo : Int, lo ≤ t → lo ≤ c → lo ≤ r) ∧ (∀ hi : Int, t < hi → c < hi → r < hi) := by
  simp only [closer] at h
  simp only [between]
  refine ⟨?_, ?_, fun lo _ _ => ?_, fun hi _ _ => ?_⟩ <;> omega

/-- The largest of four distances drops by 1 when each of them does. -/
theorem max4_drop (a b c d a1 b1 c1 d1 : Nat) (ha : a ≤ a1 - 1) (hb : b ≤ b1 - 1)
    (hc : c ≤ c1 - 1) (hd : d ≤ d1 - 1) :
    max (max a b) (max c d) ≤ max (max a1 b1) (max c1 d1) - 1 := by
  omega

/-- One more step of the smoother is the smoother applied to the run so far. -/
theorem smooth_steps_succ (seconds : ℚ) (n : Nat) (c : duplicator_capture) :
    smooth_steps seconds (n + 1) c = smooth_capture (smooth_steps seconds n c) seconds := by
  simp only [smooth_steps, Function.iterate_succ_apply']

/-! ## The timer over runs of ticks -/

/-- A frame pull makes no creation attempt and leaves the timer alone or at 0. -/
theorem pull_frame_timer (os : host) (c : duplicator_capture) :
    creation_calls (pull_frame os c).2 = [] ∧
    ((pull_frame os c).1.reset_timeout = 0 ∨
      (pull_frame os c).1.reset_timeout = c.reset_timeout) := by
  cases hd : c.duplicator with
  | none => simp [pull_frame_none os c hd, creation_calls]
  | some d =>
    cases hu : os.gs_duplicator_update_frame d
    · simp [pull_frame_fail os c d hd hu, free_capture_data, creation_calls, gs_call.is_create]
    · by_cases hw : c.capture.width = 0
      · simp [pull_frame_reset os c d hd hu hw, reset_capture_data, capture_cursor_state,
          creation_calls, gs_call.is_create]
      · simp [pull_frame_keep os c d hd hu hw, capture_cursor_state, creation_calls,
          gs_call.is_create]

/-- The number of creation attempts is the number of creation calls. -/
theorem creation_attempts_eq (calls : List gs_call) :
    creation_attempts calls = (creation_calls calls).length := by
  simp [creation_attempts, creation_calls, List.countP_eq_length_filter]

/-- A session without duplicator whose next shown tick will attempt creation at
once: it is not showing, or its timer is at the threshold. -/
theorem hidden_run_ready (hidden : List (host × ℚ)) (c : duplicator_capture)
    (hh : ∀ t ∈ hidden, t.1.obs_source_showing = false)
    (hd : c.duplicator = none) (ht : c.showing = true → c.reset_timeout = RESET_INTERVAL_SEC) :
    (run_calls (tick_calls hidden) c).1.duplicator = none ∧
    (run_calls (tick_calls hidden) c).1.monitor = c.monitor ∧
    ((run_calls (tick_calls hidden) c).1.showing = true →
      (run_calls (tick_calls hidden) c).1.reset_timeout = RESET_INTERVAL_SEC) := by
  induction hidden generalizing c with
  | nil => exact ⟨hd, rfl, ht⟩
  | cons t rest ih =>
    have ho := hh t (List.mem_cons_self _ _)
    have hrest : ∀ t ∈ rest, t.1.obs_source_showing = false :=
      fun t ht => hh t (List.mem_cons_of_mem _ ht)
    have hstep : (duplicator_capture_tick t.1 c t.2).1.duplicator = none ∧
        (duplicator_capture_tick t.1 c t.2).1.monitor = c.monitor ∧
        (duplicator_capture_tick t.1 c t.2).1.showing = false := by
      rw [tick_hidden t.1 c t.2 ho]
      cases hs : c.showing
      · simp [hd, hs]
      · simp [free_capture_data]
    obtain ⟨s1, s2, s3⟩ := hstep
    have := ih (duplicator_capture_tick t.1 c t.2).1 hrest s1 (by rw [s3]; intro h; cases h)
    simp only [tick_calls, List.map_cons, run_calls, host_call.apply] at this ⊢
    rw [s2] at this
    exact this

/-- The log of a run of example ticks: a creation that succeeds, a frame pull
that fails five seconds later, then two ticks of 2 and 1 seconds with creation
failing. -/
theorem example_teardown_run :
    0 < creation_attempts
      (duplicator_capture_tick (example_host true (some 5) true) example_session 0).2 ∧
    0 < creation_attempts
      (duplicator_capture_tick (example_host true none true)
        (run_calls (tick_calls [(example_host true none false, 5),
            (example_host true none true, 2)])
          (duplicator_capture_tick (example_host true (some 5) true) example_session 0).1).1
        1).2 := by
  constructor
  · simp [duplicator_capture_tick, example_session, example_settings, example_host,
      duplicator_capture_create, update_settings, track_foreground_window, acquire_duplicator,
      pull_frame, prime_reset_timeout, reset_capture_data, free_capture_data,
      capture_cursor_state, RESET_INTERVAL_SEC, bzalloc_capture, obs_data_get_bool,
      obs_data_get_int, obs_data_item, region_zero, to_long, creation_attempts,
      gs_call.is_create]
  · simp [tick_calls, run_calls, host_call.apply, duplicator_capture_tick, example_session,
      example_settings, example_host,
      duplicator_capture_create, update_settings, track_foreground_window, acquire_duplicator,
      pull_frame, prime_reset_timeout, reset_capture_data, free_capture_data,
      capture_cursor_state, RESET_INTERVAL_SEC, bzalloc_capture, obs_data_get_bool,
      obs_data_get_int, obs_data_item, region_zero, to_long, creation_attempts,
      gs_call.is_create]
    norm_num

/-! ## The smoother in binary32 -/

/-- One smoothing step on an integer field of magnitude at most 65536, with a
factor between 0 and 15/32: a field at its target stays, any other moves
strictly closer without passing it. -/
theorem c_round_lerp (t c : ℤ) (x : ℚ) (h0 : 0 ≤ x) (h1 : x ≤ 15 / 32)
    (ht : |t| ≤ 65536) (hc : |c| ≤ 65536) :
    closer t c (c_round (lerp (f32 t) (f32 c) x)) := by
  rw [f32_intCast t (lt_of_le_of_lt ht (by norm_num)),
    f32_intCast c (lt_of_le_of_lt hc (by norm_num))]
  obtain ⟨lo, hi⟩ := c_round_bounds (lerp t c x)
  have he := abs_le.1 (lerp_error t c x ht hc h0 (by linarith))
  obtain ⟨e1, e2⟩ := he
  generalize c_round (lerp (↑t) (↑c) x) = r at lo hi ⊢
  generalize lerp (↑t) (↑c) x = v at lo hi e1 e2
  refine ⟨fun h => ?_, fun h => ?_, fun h => ?_⟩
  · subst h
    simp only [sub_self, mul_zero, add_zero] at e1 e2
    have l2 : ((c : ℚ) - 1) < r := by linarith
    have h2 : (r : ℚ) < c + 1 := by linarith
    have l3 : c - 1 < r := by exact_mod_cast l2
    have h3 : r < c + 1 := by exact_mod_cast h2
    omega
  · have hd : (1 : ℚ) ≤ c - t := by
      have : t + 1 ≤ c := h
      have : ((t + 1 : ℤ) : ℚ) ≤ c := by exact_mod_cast this
      push_cast at this
      linarith
    have hx : 0 ≤ x * ((c : ℚ) - t) := mul_nonneg h0 (by linarith)
    have hx2 : x * ((c : ℚ) - t) ≤ (15 / 32) * (c - t) := by
      apply mul_le_mul_of_nonneg_right h1 (by linarith)
    have l2 : ((t : ℚ) - 1) < r := by linarith
    have h2 : (r : ℚ) < c := by linarith
    have l3 : t - 1 < r := by exact_mod_cast l2
    have h3 : r < c := by exact_mod_cast h2
    constructor <;> omega
  · have hd : (1 : ℚ) ≤ t - c := by
      have : c + 1 ≤ t := h
      have : ((c + 1 : ℤ) : ℚ) ≤ t := by exact_mod_cast this
      push_cast at this
      linarith
    have hx : x * ((c : ℚ) - t) ≤ 0 := mul_nonpos_of_nonneg_of_nonpos h0 (by linarith)
    have hx2 : (15 / 32) * ((c : ℚ) - t) ≤ x * (c - t) := by
      apply mul_le_mul_of_nonpos_right h1 (by linarith)
    have l2 : (r : ℚ) < t + 1 := by linarith
    have h2 : (c : ℚ) < r := by linarith
    have l3 : r < t + 1 := by exact_mod_cast l2
    have h3 : c < r := by exact_mod_cast h2
    constructor <;> omega

/-- One smoothing step on a long field of magnitude at most 65536, factor
between 0 and 15/32. -/
theorem smooth_long_field (t c : Int) (x : ℚ) (h0 : 0 ≤ x) (h1 : x ≤ 15 / 32)
    (ht1 : -65536 ≤ t) (ht2 : t ≤ 65536) (hc1 : -65536 ≤ c) (hc2 : c ≤ 65536) :
    closer t c (to_long (c_round (lerp (f32 t) (f32 c) x))) := by
  obtain ⟨k1, k2, k3⟩ :=
    c_round_lerp t c x h0 h1 (abs_le.2 ⟨ht1, ht2⟩) (abs_le.2 ⟨hc1, hc2⟩)
  have hid : to_long (c_round (lerp (f32 t) (f32 c) x)) = c_round (lerp (f32 t) (f32 c) x) := by
    apply to_long_id
    · rcases lt_trichotomy c t with h | h | h
      · have := k3 h; omega
      · have := k1 h; omega
      · have := k2 h; omega
    · rcases lt_trichotomy c t with h | h | h
      · have := k3 h; omega
      · have := k1 h; omega
      · have := k2 h; omega
  rw [hid]
  exact ⟨k1, k2, k3⟩

/-- One smoothing step on a uint32_t field of at most 65536, factor between 0
and 15/32. -/
theorem smooth_uint32_field (t c : Nat) (x : ℚ) (h0 : 0 ≤ x) (h1 : x ≤ 15 / 32)
    (ht : t ≤ 65536) (hc : c ≤ 65536) :
    closer t c (to_uint32 (to_long (c_round (lerp (f32 t) (f32 c) x)))) := by
  have h := smooth_long_field t c x h0 h1 (by omega) (by omega) (by omega) (by omega)
  simp only [Int.cast_natCast] at h
  obtain ⟨k1, k2, k3⟩ := h
  have hid : (to_uint32 (to_long (c_round (lerp (f32 t) (f32 c) x))) : Int) =
      to_long (c_round (lerp (f32 t) (f32 c) x)) := by
    apply to_uint32_id
    · rcases lt_trichotomy (c : Int) t with h | h | h
      · have := k3 h; omega
      · have := k1 h; omega
      · have := k2 h; omega
    · rcases lt_trichotomy (c : Int) t with h | h | h
      · have := k3 h; omega
      · have := k1 h; omega
      · have := k2 h; omega
  rw [hid]
  exact ⟨k1, k2, k3⟩

/-- The factor of a step with an elapsed time between 0 and 1/64 second lies
between 0 and 15/32. -/
theorem factor_small (seconds : ℚ) (h0 : 0 ≤ seconds) (h1 : seconds ≤ 1 / 64) :
    0 ≤ f32 (seconds * 30) ∧ f32 (seconds * 30) ≤ 15 / 32 :=
  ⟨f32_nonneg _ (by linarith), f32_le_factor _ (by linarith) (by linarith)⟩

/-- What one step of the smoother does to a region with small fields, elapsed
time between 0 and 1/64 second: every field gets closer to its target. -/
theorem smooth_region_closer (t c : region_t) (seconds : ℚ)
    (h0 : 0 ≤ seconds) (h1 : seconds ≤ 1 / 64)
    (ht : region_small t) (hc : region_small c) :
    closer t.x c.x (smooth_region t c seconds).x ∧
    closer t.y c.y (smooth_region t c seconds).y ∧
    closer t.width c.width (smooth_region t c seconds).width ∧
    closer t.height c.height (smooth_region t c seconds).height := by
  obtain ⟨t1, t2, t3, t4, t5, t6⟩ := ht
  obtain ⟨c1, c2, c3, c4, c5, c6⟩ := hc
  obtain ⟨f0, f1⟩ := factor_small seconds h0 h1
  exact ⟨smooth_long_field _ _ _ f0 f1 t1 t2 c1 c2, smooth_long_field _ _ _ f0 f1 t3 t4 c3 c4,
    smooth_uint32_field _ _ _ f0 f1 t5 c5, smooth_uint32_field _ _ _ f0 f1 t6 c6⟩

/-- One step of the smoother on a session with small fields, elapsed time
between 0 and 1/64 second: target is kept, the fields of capture stay small,
every field of capture stays between its old value and the target, and the
distance to the target drops by at least 1. -/
theorem smooth_capture_step (c : duplicator_capture) (seconds : ℚ)
    (h0 : 0 ≤ seconds) (h1 : seconds ≤ 1 / 64)
    (ht : region_small c.target) (hc : region_small c.capture) :
    (smooth_capture c seconds).target = c.target ∧
    region_small (smooth_capture c seconds).capture ∧
    region_between c.target c.capture (smooth_capture c seconds).capture ∧
    region_gap c.target (smooth_capture c seconds).capture ≤
      region_gap c.target c.capture - 1 := by
  by_cases hg : c.capture.x ≠ c.target.x ∨ c.capture.y ≠ c.target.y ∨
      c.capture.width ≠ c.target.width ∨ c.capture.height ≠ c.target.height
  · have hs : smooth_capture c seconds =
        { c with capture := smooth_region c.target c.capture seconds } := by
      simp only [smooth_capture, if_pos hg]
    obtain ⟨k1, k2, k3, k4⟩ := smooth_region_closer c.target c.capture seconds h0 h1 ht hc
    rw [hs]
    generalize smooth_region c.target c.capture seconds = r at k1 k2 k3 k4
    obtain ⟨x1, x2, x3, x4⟩ := closer_facts _ _ _ k1
    obtain ⟨y1, y2, y3, y4⟩ := closer_facts _ _ _ k2
    obtain ⟨w1, w2, w3, w4⟩ := closer_facts _ _ _ k3
    obtain ⟨g1, g2, g3, g4⟩ := closer_facts _ _ _ k4
    obtain ⟨t1, t2, t3, t4, t5, t6⟩ := ht
    obtain ⟨c1, c2, c3, c4, c5, c6⟩ := hc
    refine ⟨rfl, ⟨x3 _ t1 c1, ?_, y3 _ t3 c3, ?_, ?_, ?_⟩,
      ⟨x1, y1, w1, g1⟩, max4_drop _ _ _ _ _ _ _ _ x2 y2 w2 g2⟩
    · show r.x ≤ 65536
      have := x4 65537 (by omega) (by omega)
      omega
    · show r.y ≤ 65536
      have := y4 65537 (by omega) (by omega)
      omega
    · show r.width ≤ 65536
      have := w4 65537 (by omega) (by omega)
      omega
    · show r.height ≤ 65536
      have := g4 65537 (by omega) (by omega)
      omega
  · have hs : smooth_capture c seconds = c := by
      simp only [smooth_capture, if_neg hg]
    rw [hs]
    have e1 : c.capture.x = c.target.x := by
      by_contra h; exact hg (Or.inl h)
    have e2 : c.capture.y = c.target.y := by
      by_contra h; exact hg (Or.inr (Or.inl h))
    have e3 : c.capture.width = c.target.width := by
      by_contra h; exact hg (Or.inr (Or.inr (Or.inl h)))
    have e4 : c.capture.height = c.target.height := by
      by_contra h; exact hg (Or.inr (Or.inr (Or.inr h)))
    refine ⟨rfl, hc, ?_, ?_⟩
    · simp only [region_between, between, e1, e2, e3, e4]
      omega
    · simp only [region_gap, e1, e2, e3, e4]
      omega

/-- With an elapsed time between 0 and 1/64 second the smoother reaches the
target within as many steps as the largest field distance, and stays there. -/
theorem smooth_steps_reach (seconds : ℚ) (h0 : 0 ≤ seconds) (h1 : seconds ≤ 1 / 64)
    (n : Nat) (c : duplicator_capture)
    (ht : region_small c.target) (hc : region_small c.capture)
    (hn : region_gap c.target c.capture ≤ n) :
    (smooth_steps seconds n c).capture = c.target := by
  induction n generalizing c with
  | zero => exact region_gap_zero _ _ (Nat.le_zero.1 hn)
  | succ n ih =>
    obtain ⟨s1, s2, s3, s4⟩ := smooth_capture_step c seconds h0 h1 ht hc
    have := ih (smooth_capture c seconds) (by rw [s1]; exact ht) s2 (by rw [s1]; omega)
    rw [s1] at this
    exact this

/-- With an elapsed time between 0 and 1/64 second every run of the smoother
keeps target and keeps the fields of capture small. -/
theorem smooth_steps_range (seconds : ℚ) (h0 : 0 ≤ seconds) (h1 : seconds ≤ 1 / 64)
    (n : Nat) (c : duplicator_capture)
    (ht : region_small c.target) (hc : region_small c.capture) :
    (smooth_steps seconds n c).target = c.target ∧
      region_small (smooth_steps seconds n c).capture := by
  induction n generalizing c with
  | zero => exact ⟨rfl, hc⟩
  | succ n ih =>
    obtain ⟨s1, s2, s3, s4⟩ := smooth_capture_step c seconds h0 h1 ht hc
    have := ih (smooth_capture c seconds) (by rw [s1]; exact ht) s2
    rw [s1] at this
    exact this

/-- The rounded blend of 0 and 1 with the factor of 1/32 second, 15/16, is the
blend 15/16, every operation being exact, and its C round is 1. -/
theorem c_round_stuck : c_round (lerp (f32 0) (f32 1) (f32 (1 / 32 * 30))) = 1 := by
  have e1 : f32 (15 / 16) = 15 / 16 := by
    have h := f32_exact 15 (-4) (by norm_num) (by norm_num)
    norm_num at h
    exact h
  have e2 : f32 (1 / 16) = 1 / 16 := by
    have h := f32_exact 1 (-4) (by norm_num) (by norm_num)
    norm_num at h
    exact h
  have e3 : f32 100 = 100 := by
    have h := f32_intCast 100 (by norm_num)
    norm_num at h
    exact h
  have e4 : f32 (375 / 4) = 375 / 4 := by
    have h := f32_exact 375 (-2) (by norm_num) (by norm_num)
    norm_num at h
    exact h
  have h : lerp (f32 0) (f32 1) (f32 (1 / 32 * 30)) = 15 / 16 := by
    simp only [lerp]
    norm_num [f32_zero, e1, e2, e3, e4]
  rw [h]
  simp only [c_round]
  rw [if_pos (by norm_num), Int.floor_eq_iff]
  norm_num

/-- With an elapsed time of 1/32 the smoother leaves the stuck session as it
is. -/
theorem smooth_capture_stuck : smooth_capture stuck_session (1 / 32) = stuck_session := by
  have hr : smooth_region { x := 0, y := 0, width := 0, height := 0 }
      { x := 1, y := 1, width := 1, height := 1 } (1 / 32) =
      { x := 1, y := 1, width := 1, height := 1 } := by
    simp only [smooth_region, Int.cast_zero, Int.cast_one, Nat.cast_zero, Nat.cast_one,
      c_round_stuck]
    simp [to_long, to_uint32]
  simp only [smooth_capture, stuck_session]
  rw [if_pos (by decide), hr]

/-- The blend of 1000 and 1001 with the factor 0.49999997 (elapsed time
0.016666666, the float below 1/60) is 1000.5 in binary32: 1 - factor rounds to
0.5 and the sum of the two products to 100050. -/
theorem lerp_near_half :
    f32 (1118481 / 67108864 * 30) = 16777215 / 33554432 ∧
    lerp (f32 1000) (f32 1001) (16777215 / 33554432) = 2001 / 2 := by
  have e0 : f32 (1118481 / 67108864 * 30) = 16777215 / 33554432 := by
    have h := f32_exact 16777215 (-25) (by norm_num) (by norm_num)
    norm_num at h ⊢
    exact h
  have e1 : f32 1000 = 1000 := by
    have h := f32_intCast 1000 (by norm_num)
    norm_num at h
    exact h
  have e2 : f32 1001 = 1001 := by
    have h := f32_intCast 1001 (by norm_num)
    norm_num at h
    exact h
  have e3 : f32 100000 = 100000 := by
    have h := f32_intCast 100000 (by norm_num)
    norm_num at h
    exact h
  have e4 : f32 100100 = 100100 := by
    have h := f32_intCast 100100 (by norm_num)
    norm_num at h
    exact h
  have e5 : f32 (16777217 / 33554432) = 1 / 2 := by
    have h := f32_of_round (16777217 / 33554432) (-1) 8388608 (by norm_num)
      (by norm_num [abs_of_pos]) (by norm_num [abs_of_pos])
      (by
        have t := round_even_tie 8388608
        norm_num at t ⊢
        exact t)
    rw [h]
    norm_num
  have e6 : f32 50000 = 50000 := by
    have h := f32_intCast 50000 (by norm_num)
    norm_num at h
    exact h
  have e7 : f32 (419849805375 / 8388608) = 12812799 / 256 := by
    have h := f32_eval (419849805375 / 8388608) 15 12812799 (by norm_num)
      (by norm_num [abs_of_pos]) (by norm_num [abs_of_pos]) (by norm_num [abs_lt])
    rw [h]
    norm_num
  have e8 : f32 (25612799 / 256) = 100050 := by
    have h := f32_of_round (25612799 / 256) 16 12806400 (by norm_num)
      (by norm_num [abs_of_pos]) (by norm_num [abs_of_pos])
      (by
        have t := round_even_tie 12806399
        norm_num at t ⊢
        exact t)
    rw [h]
    norm_num
  have e9 : f32 (2001 / 2) = 2001 / 2 := by
    have h := f32_exact 2001 (-1) (by norm_num) (by norm_num)
    norm_num at h
    exact h
  refine ⟨e0, ?_⟩
  simp only [lerp, e1, e2]
  norm_num [e3, e4, e5, e6, e7, e8, e9]

/-- With an elapsed time of 0.016666666 second, the float below 1/60, the
smoother leaves the near session as it is. -/
theorem smooth_capture_near_stuck :
    smooth_capture near_session (1118481 / 67108864) = near_session := by
  have hc : c_round (lerp (f32 1000) (f32 1001) (f32 (1118481 / 67108864 * 30))) = 1001 := by
    rw [lerp_near_half.1, lerp_near_half.2]
    simp only [c_round]
    rw [if_pos (by norm_num), Int.floor_eq_iff]
    norm_num
  have hr : smooth_region { x := 1000, y := 1000, width := 1000, height := 1000 }
      { x := 1001, y := 1001, width := 1001, height := 1001 } (1118481 / 67108864) =
      { x := 1001, y := 1001, width := 1001, height := 1001 } := by
    simp only [smooth_region, Int.cast_ofNat, Nat.cast_ofNat, hc]
    simp [to_long, to_uint32]
  simp only [smooth_capture, near_session]
  rw [if_pos (by decide), hr]

/-- A run of a smoother step that leaves the session as it is. -/
theorem smooth_steps_fixed (seconds : ℚ) (c : duplicator_capture)
    (h : smooth_capture c seconds = c) (n : Nat) : smooth_steps seconds n c = c := by
  induction n with
  | zero => rfl
  | succ n ih => rw [smooth_steps_succ, ih, h]

/-- With an elapsed time of 1/2 second (factor 15) the blend of the target
width 10 and the capture width 0 is -140, every operation being exact, and the
conversion to uint32_t stores it as 4294967156. -/
theorem smooth_region_wraps :
    smooth_region { x := 0, y := 0, width := 10, height := 0 }
      { x := 0, y := 0, width := 0, height := 0 } (1 / 2) =
      { x := 0, y := 0, width := 4294967156, height := 0 } := by
  have i : ∀ n : Int, |n| < 2 ^ 24 → f32 n = n := f32_intCast
  have e15 : f32 15 = 15 := by simpa using i 15 (by norm_num)
  have e10 : f32 10 = 10 := by simpa using i 10 (by norm_num)
  have e1000 : f32 1000 = 1000 := by simpa using i 1000 (by norm_num)
  have e14 : f32 (-14) = -14 := by simpa using i (-14) (by norm_num)
  have e14000 : f32 (-14000) = -14000 := by simpa using i (-14000) (by norm_num)
  have e140 : f32 (-140) = -140 := by simpa using i (-140) (by norm_num)
  have hz : lerp 0 0 15 = 0 := by
    simp only [lerp]
    norm_num [f32_zero, e14]
  have hw : lerp 10 0 15 = -140 := by
    simp only [lerp]
    norm_num [f32_zero, e14, e1000, e14000, e140]
  have hr : c_round (-140) = -140 := by
    simp only [c_round]
    rw [if_neg (by norm_num), Int.ceil_eq_iff]
    norm_num
  have hr0 : c_round 0 = 0 := by
    simp only [c_round]
    rw [if_pos (le_refl _), Int.floor_eq_iff]
    norm_num
  have hf : f32 (1 / 2 * 30) = 15 := by
    norm_num [e15]
  simp only [smooth_region, hf, Int.cast_zero, Nat.cast_zero, Nat.cast_ofNat, f32_zero, e10, hz,
    hw, hr, hr0]
  simp [to_long, to_uint32]

/-! ## The rounded timer over runs of ticks -/

/-- A tick while the host shows the source, seen from the retry timer: with t0
the timer after the gate of lines 273-275, one creation attempt is made, for
the monitor of the session, exactly when no duplicator is held and the rounded
sum of t0 and the elapsed time reaches the threshold; the timer ends at 0
after an attempt, and at 0, t0 or the rounded sum, then below the threshold,
otherwise. -/
theorem tick_shown_timer (os : host) (c : duplicator_capture) (seconds : ℚ)
    (ho : os.obs_source_showing = true) :
    creation_calls (duplicator_capture_tick os c seconds).2 =
      (if c.duplicator = none ∧ RESET_INTERVAL_SEC ≤
          f32 ((if c.showing then c.reset_timeout else RESET_INTERVAL_SEC) + seconds)
        then [gs_call.duplicator_create c.monitor] else []) ∧
    (creation_calls (duplicator_capture_tick os c seconds).2 ≠ [] →
      (duplicator_capture_tick os c seconds).1.reset_timeout = 0) ∧
    ((duplicator_capture_tick os c seconds).1.reset_timeout = 0 ∨
      (duplicator_capture_tick os c seconds).1.reset_timeout =
        (if c.showing then c.reset_timeout else RESET_INTERVAL_SEC) ∨
      ((duplicator_capture_tick os c seconds).1.reset_timeout =
        f32 ((if c.showing then c.reset_timeout else RESET_INTERVAL_SEC) + seconds) ∧
       f32 ((if c.showing then c.reset_timeout else RESET_INTERVAL_SEC) + seconds) <
        RESET_INTERVAL_SEC)) ∧
    (duplicator_capture_tick os c seconds).1.showing = true := by
  rw [tick_shown os c seconds ho]
  have ht : (prime_reset_timeout (track_foreground_window os c seconds)).reset_timeout =
      (if c.showing then c.reset_timeout else RESET_INTERVAL_SEC) := by
    cases hs : c.showing <;> simp [prime_reset_timeout, hs]
  have hm : (prime_reset_timeout (track_foreground_window os c seconds)).monitor = c.monitor := by
    simp [prime_reset_timeout]
  have hdup : (prime_reset_timeout (track_foreground_window os c seconds)).duplicator =
      c.duplicator := by
    simp [prime_reset_timeout]
  generalize prime_reset_timeout (track_foreground_window os c seconds) = c2 at ht hm hdup
  rw [← ht]
  simp only [creation_calls, List.filter_append]
  cases hd : c.duplicator with
  | some d =>
    rw [hd] at hdup
    rw [acquire_duplicator_held os c2 seconds d hdup]
    obtain ⟨p1, p2⟩ := pull_frame_timer os c2
    simp only [creation_calls] at p1
    simp only [p1, List.filter_nil, List.append_nil, false_and, if_false, ne_eq,
      not_true_eq_false, false_implies, true_and, reduceCtorEq]
    rcases p2 with p2 | p2
    · exact ⟨Or.inl p2, trivial⟩
    · exact ⟨Or.inr (Or.inl p2), trivial⟩
  | none =>
    rw [hd] at hdup
    rw [acquire_duplicator_none os c2 seconds hdup]
    by_cases hle : RESET_INTERVAL_SEC ≤ f32 (c2.reset_timeout + seconds)
    · simp only [hle, if_true, and_self]
      obtain ⟨p1, p2⟩ := pull_frame_timer os
        { c2 with duplicator := os.gs_duplicator_create c2.monitor, reset_timeout := 0 }
      simp only [creation_calls] at p1
      have p3 : (pull_frame os
          { c2 with duplicator := os.gs_duplicator_create c2.monitor,
                    reset_timeout := 0 }).1.reset_timeout = 0 := by
        rcases p2 with p2 | p2
        · exact p2
        · exact p2
      simp only [hm] at p1 p3 ⊢
      simp [p1, p3, gs_call.is_create]
    · simp only [hle, if_false, and_false]
      have hp := pull_frame_none os
        { c2 with reset_timeout := f32 (c2.reset_timeout + seconds) } hdup
      simp [hp, lt_of_not_le hle]

/-- A rounded sum below the threshold is within 2 ^ -23 of the exact sum of
its operands, when these are not negative. -/
theorem f32_below_reset (x : ℚ) (h0 : 0 ≤ x) (h : f32 x < RESET_INTERVAL_SEC) :
    x < RESET_INTERVAL_SEC ∧ |f32 x - x| ≤ 1 / 2 ^ 23 := by
  have hx : x < RESET_INTERVAL_SEC := by
    by_contra hn
    exact absurd (f32_reset_le x (not_lt.1 hn)) (not_le.2 h)
  refine ⟨hx, f32_error_small x ?_⟩
  unfold RESET_INTERVAL_SEC at hx
  rw [abs_of_nonneg h0]
  linarith

/-- Over a run of shown ticks with elapsed times that are not negative, on a
session with the showing flag set, the timer stays between 0 and its start
value plus the tick time of the run plus 2 ^ -23 for each tick. -/
theorem shown_run_timer (ticks : List (host × ℚ)) (c : duplicator_capture)
    (hh : ∀ t ∈ ticks, t.1.obs_source_showing = true ∧ 0 ≤ t.2)
    (hs : c.showing = true) (h0 : 0 ≤ c.reset_timeout) :
    (run_calls (tick_calls ticks) c).1.showing = true ∧
    0 ≤ (run_calls (tick_calls ticks) c).1.reset_timeout ∧
    (run_calls (tick_calls ticks) c).1.reset_timeout ≤
      c.reset_timeout + elapsed ticks + ticks.length / 2 ^ 23 := by
  induction ticks generalizing c with
  | nil => simp [tick_calls, run_calls, elapsed, hs, h0]
  | cons t rest ih =>
    obtain ⟨ho, hsec⟩ := hh t (List.mem_cons_self _ _)
    have hrest : ∀ t ∈ rest, t.1.obs_source_showing = true ∧ 0 ≤ t.2 :=
      fun t ht => hh t (List.mem_cons_of_mem _ ht)
    obtain ⟨_, _, k3, k4⟩ := tick_shown_timer t.1 c t.2 ho
    simp only [hs, if_true] at k3
    have hsum : 0 ≤ c.reset_timeout + t.2 := by linarith
    have hlo : 0 ≤ (duplicator_capture_tick t.1 c t.2).1.reset_timeout := by
      rcases k3 with k | k | ⟨k, _⟩
      · rw [k]
      · rw [k]; exact h0
      · rw [k]; exact f32_nonneg _ hsum
    have hhi : (duplicator_capture_tick t.1 c t.2).1.reset_timeout ≤
        c.reset_timeout + t.2 + 1 / 2 ^ 23 := by
      have hp : (0 : ℚ) ≤ 1 / 2 ^ 23 := by positivity
      rcases k3 with k | k | ⟨k, kl⟩
      · rw [k]; linarith
      · rw [k]; linarith
      · have h := (abs_le.1 (f32_below_reset _ hsum kl).2).2
        rw [k]; linarith
    obtain ⟨r1, r2, r3⟩ := ih (duplicator_capture_tick t.1 c t.2).1 hrest k4 hlo
    simp only [tick_calls, List.map_cons, run_calls, host_call.apply, elapsed, List.sum_cons,
      List.length_cons, Nat.cast_add, Nat.cast_one] at r1 r2 r3 ⊢
    refine ⟨r1, r2, ?_⟩
    have e : ((rest.length : ℚ) + 1) / 2 ^ 23 = rest.length / 2 ^ 23 + 1 / 2 ^ 23 := by ring
    rw [e]
    linarith
/-- The binary32 sum of 2 and the float below 1 is 3: the exact sum 3 - 2 ^ -24
lies halfway between two floats and the tie goes to the even one. -/
theorem f32_two_add_below_one : f32 (50331647 / 16777216) = 3 := by
  have h := f32_eval (50331647 / 16777216) 1 12582912 (by norm_num)
    (by norm_num [abs_of_pos]) (by norm_num [abs_of_pos]) (by norm_num [abs_lt])
  rw [h]; norm_num

/-- The log of a run of example ticks with creation failing: an attempt, then
ticks of 2 seconds and of the float below 1 second. -/
theorem example_short_interval_run :
    0 < creation_attempts
      (duplicator_capture_tick (example_host true none true) example_session 0).2 ∧
    0 < creation_attempts
      (duplicator_capture_tick (example_host true none true)
        (run_calls (tick_calls [(example_host true none true, 2)])
          (duplicator_capture_tick (example_host true none true) example_session 0).1).1
        (16777215 / 16777216)).2 := by
  constructor
  · simp [duplicator_capture_tick, example_session, example_settings, example_host,
      duplicator_capture_create, update_settings, track_foreground_window, acquire_duplicator,
      pull_frame, prime_reset_timeout, reset_capture_data, free_capture_data,
      capture_cursor_state, RESET_INTERVAL_SEC, bzalloc_capture, obs_data_get_bool,
      obs_data_get_int, obs_data_item, region_zero, to_long, creation_attempts,
      gs_call.is_create]
  · simp [tick_calls, run_calls, host_call.apply, duplicator_capture_tick, example_session,
      example_settings, example_host,
      duplicator_capture_create, update_settings, track_foreground_window, acquire_duplicator,
      pull_frame, prime_reset_timeout, reset_capture_data, free_capture_data,
      capture_cursor_state, RESET_INTERVAL_SEC, bzalloc_capture, obs_data_get_bool,
      obs_data_get_int, obs_data_item, region_zero, to_long, creation_attempts,
      gs_call.is_create]
    norm_num [f32_two_add_below_one]

/-! ## Example ticks in window-follow mode -/

/-- The session right after create with window-follow on and monitor 1
selected is in follow mode, captures monitor 1, is not showing and has a zero
display. -/
theorem follow_monitor_session_state :
    follow_monitor_session.capture_foreground_window = true ∧
    follow_monitor_session.monitor = 1 ∧
    follow_monitor_session.showing = false ∧
    follow_monitor_session.display = { x := 0, y := 0, width := 0, height := 0 } ∧
    follow_monitor_session.target = { x := 0, y := 0, width := 0, height := 0 } := by
  simp [follow_monitor_session, duplicator_capture_create, update_settings,
    follow_monitor_settings, bzalloc_capture,
    obs_data_get_bool, obs_data_get_int, obs_data_item, region_zero, to_long, List.lookup]

/-- On the two-monitor host a tick in which the source is not shown makes the
rectangle of the foreground window, which lies on monitor 0, the target of the
session that captures monitor 1, and leaves display zero. -/
theorem two_monitor_tick (seconds : ℚ) :
    (duplicator_capture_tick (two_monitor_host false none) follow_monitor_session
        seconds).1.target = { x := 100, y := 100, width := 800, height := 600 } ∧
    (duplicator_capture_tick (two_monitor_host false none) follow_monitor_session
        seconds).1.display = { x := 0, y := 0, width := 0, height := 0 } := by
  obtain ⟨s1, s2, s3, s4, s5⟩ := follow_monitor_session_state
  rw [tick_hidden _ _ _ rfl]
  simp only [track_showing, s3]
  simp only [track_foreground_window, s1, if_true]
  obtain ⟨r, hr⟩ := smooth_capture_frame
    (resolve_target (two_monitor_host false none) follow_monitor_session) seconds
  rw [hr]
  have ht : resolve_target (two_monitor_host false none) follow_monitor_session =
      { follow_monitor_session with
          target := { x := 100, y := 100, width := 800, height := 600 } } := by
    simp [resolve_target, is_valid_window, s4, s5, two_monitor_host, top_level_window,
      WS_CAPTION, to_uint32]
  rw [ht]
  exact ⟨rfl, s4⟩

/-- A tick on the held follow session with a foreground window without caption
leaves display at the monitor geometry. -/
theorem held_follow_tick_display :
    (duplicator_capture_tick (example_host true none true) held_follow_session
        (1 / 64)).1.display = { x := 0, y := 0, width := 1920, height := 1080 } := by
  simp [duplicator_capture_tick, held_follow_session, follow_session, follow_settings,
    example_host, duplicator_capture_create, update_settings, track_foreground_window,
    acquire_duplicator, pull_frame, prime_reset_timeout, reset_capture_data,
    capture_cursor_state, RESET_INTERVAL_SEC, bzalloc_capture, obs_data_get_bool,
    obs_data_get_int, obs_data_item, resolve_target, smooth_capture, is_valid_window,
    top_level_window, region_zero, to_long, List.lookup]

/-- With an elapsed time of 1/64 second (factor 15/32) one smoother step from
the zero region towards the window rectangle 800x600 at (100,100) gives
425x319 at (53,53), every float operation being exact. -/
theorem smooth_region_window :
    smooth_region { x := 100, y := 100, width := 800, height := 600 }
      { x := 0, y := 0, width := 0, height := 0 } (1 / 64) =
      { x := 53, y := 53, width := 425, height := 319 } := by
  have i : ∀ n : Int, |n| < 2 ^ 24 → f32 n = n := f32_intCast
  have e100 : f32 100 = 100 := by simpa using i 100 (by norm_num)
  have e800 : f32 800 = 800 := by simpa using i 800 (by norm_num)
  have e600 : f32 600 = 600 := by simpa using i 600 (by norm_num)
  have e10000 : f32 10000 = 10000 := by simpa using i 10000 (by norm_num)
  have e80000 : f32 80000 = 80000 := by simpa using i 80000 (by norm_num)
  have e60000 : f32 60000 = 60000 := by simpa using i 60000 (by norm_num)
  have e42500 : f32 42500 = 42500 := by simpa using i 42500 (by norm_num)
  have e31875 : f32 31875 = 31875 := by simpa using i 31875 (by norm_num)
  have e425 : f32 425 = 425 := by simpa using i 425 (by norm_num)
  have ef : f32 (15 / 32) = 15 / 32 := by
    have h := f32_exact 15 (-5) (by norm_num) (by norm_num)
    norm_num at h
    exact h
  have eg : f32 (17 / 32) = 17 / 32 := by
    have h := f32_exact 17 (-5) (by norm_num) (by norm_num)
    norm_num at h
    exact h
  have e1 : f32 (10625 / 2) = 10625 / 2 := by
    have h := f32_exact 10625 (-1) (by norm_num) (by norm_num)
    norm_num at h
    exact h
  have e2 : f32 (425 / 8) = 425 / 8 := by
    have h := f32_exact 425 (-3) (by norm_num) (by norm_num)
    norm_num at h
    exact h
  have e3 : f32 (1275 / 4) = 1275 / 4 := by
    have h := f32_exact 1275 (-2) (by norm_num) (by norm_num)
    norm_num at h
    exact h
  have hx : lerp 100 0 (15 / 32) = 425 / 8 := by
    simp only [lerp]
    norm_num [f32_zero, eg, e10000, e1, e2]
  have hw : lerp 800 0 (15 / 32) = 425 := by
    simp only [lerp]
    norm_num [f32_zero, eg, e80000, e42500, e425]
  have hh : lerp 600 0 (15 / 32) = 1275 / 4 := by
    simp only [lerp]
    norm_num [f32_zero, eg, e60000, e31875, e3]
  have rx : c_round (425 / 8) = 53 := by
    simp only [c_round]
    rw [if_pos (by norm_num), Int.floor_eq_iff]
    norm_num
  have rw1 : c_round 425 = 425 := by
    simp only [c_round]
    rw [if_pos (by norm_num), Int.floor_eq_iff]
    norm_num
  have rh : c_round (1275 / 4) = 319 := by
    simp only [c_round]
    rw [if_pos (by norm_num), Int.floor_eq_iff]
    norm_num
  have hf : f32 (1 / 64 * 30) = 15 / 32 := by
    norm_num [ef]
  simp only [smooth_region, hf, Int.cast_zero, Nat.cast_zero, Nat.cast_ofNat, Int.cast_ofNat,
    f32_zero, e100, e800, e600, hx, hw, hh, rx, rw1, rh]
  simp [to_long, to_uint32]

/-- The first tick of the follow session on the two-monitor host, shown, with
creation and the frame pull succeeding and 1/64 second elapsed: the window
rectangle becomes target and the smoother moves capture towards it before the
duplicator is created, so the frame pull finds a capture width other than 0
and does not read the monitor geometry. -/
theorem follow_first_tick :
    (duplicator_capture_tick (two_monitor_host true (some 5)) follow_session (1 / 64)).2 =
      [gs_call.duplicator_create 0, gs_call.duplicator_update_frame 5] ∧
    (duplicator_capture_tick (two_monitor_host true (some 5)) follow_session (1 / 64)).1.capture =
      { x := 53, y := 53, width := 425, height := 319 } ∧
    (duplicator_capture_tick (two_monitor_host true (some 5)) follow_session (1 / 64)).1.display =
      { x := 0, y := 0, width := 0, height := 0 } ∧
    (duplicator_capture_tick (two_monitor_host true (some 5)) follow_session (1 / 64)).1.target =
      { x := 100, y := 100, width := 800, height := 600 } ∧
    (duplicator_capture_tick (two_monitor_host true (some 5)) follow_session
      (1 / 64)).1.duplicator = some 5 := by
  have hs : follow_session = { bzalloc_capture with
      source := 1, capture_foreground_window := true, reset_timeout := RESET_INTERVAL_SEC } := by
    simp [follow_session, follow_settings, duplicator_capture_create, update_settings,
      bzalloc_capture, obs_data_get_bool, obs_data_get_int, obs_data_item, region_zero, to_long,
      List.lookup]
  have ht : track_foreground_window (two_monitor_host true (some 5)) follow_session (1 / 64) =
      { follow_session with
          target := { x := 100, y := 100, width := 800, height := 600 }
          capture := { x := 53, y := 53, width := 425, height := 319 } } := by
    have hr : resolve_target (two_monitor_host true (some 5)) follow_session =
        { follow_session with
            target := { x := 100, y := 100, width := 800, height := 600 } } := by
      rw [hs]
      simp [resolve_target, is_valid_window, two_monitor_host, top_level_window,
        WS_CAPTION, to_uint32, bzalloc_capture, region_zero]
    simp only [track_foreground_window]
    rw [if_pos (by rw [hs]), hr]
    simp only [smooth_capture]
    rw [if_pos (by rw [hs]; simp [bzalloc_capture, region_zero])]
    have hc : follow_session.capture = { x := 0, y := 0, width := 0, height := 0 } := by
      rw [hs]; simp [bzalloc_capture, region_zero]
    simp only [hc, smooth_region_window]
  have h3 : (3 : ℚ) ≤ f32 (3 + 64⁻¹) := f32_three_le _ (by norm_num)
  rw [tick_shown _ _ _ rfl, ht, hs]
  simp [acquire_duplicator, pull_frame, prime_reset_timeout, capture_cursor_state,
    two_monitor_host, bzalloc_capture, region_zero, RESET_INTERVAL_SEC, h3]

/-- A creation call in the log of a tick: the host shows the source and the
session came without a duplicator. -/
theorem tick_creates (os : host) (c : duplicator_capture) (seconds : ℚ) (m : Int)
    (h : gs_call.duplicator_create m ∈ (duplicator_capture_tick os c seconds).2) :
    os.obs_source_showing = true ∧ c.duplicator = none := by
  cases ho : os.obs_source_showing
  · rw [tick_hidden os c seconds ho] at h
    cases hs : c.showing <;> simp [hs] at h
  · refine ⟨rfl, ?_⟩
    obtain ⟨a1, _, _, _⟩ := tick_shown_timer os c seconds ho
    have hm : gs_call.duplicator_create m ∈
        creation_calls (duplicator_capture_tick os c seconds).2 := by
      simp only [creation_calls, List.mem_filter]
      exact ⟨h, rfl⟩
    rw [a1] at hm
    by_contra hd
    simp [hd] at hm

/-! # The claims -/

/-! ## C1 -/

/-- C1: in every reachable session, a tick during which the host reports that
the source is not shown leaves the duplicator handle null and the showing flag
false. -/
theorem tick_hidden_releases (os : host) (c : duplicator_capture) (seconds : ℚ)
    (hr : Reachable c) (hh : os.obs_source_showing = false) :
    (duplicator_capture_tick os c seconds).1.duplicator = none ∧
      (duplicator_capture_tick os c seconds).1.showing = false := by
  have h1 := (session_inv_of_reachable c hr).1
  rw [tick_hidden os c seconds hh]
  cases hs : c.showing
  · simp [hs, h1 hs]
  · simp [free_capture_data]

/-- C1 at a concrete input: a session that acquired a duplicator and is then
hidden. -/
theorem tick_hidden_releases_witness :
    Reachable (duplicator_capture_tick (example_host true (some 5) true) example_session 0).1 ∧
    (example_host false none true).obs_source_showing = false ∧
    (duplicator_capture_tick (example_host true (some 5) true) example_session 0).1.duplicator
      = some 5 ∧
    (duplicator_capture_tick (example_host false none true)
      (duplicator_capture_tick (example_host true (some 5) true) example_session 0).1
      0).1.duplicator = none ∧
    (duplicator_capture_tick (example_host false none true)
      (duplicator_capture_tick (example_host true (some 5) true) example_session 0).1
      0).1.showing = false :=
  ⟨reachable_tick _ _ _ (reachable_create _ _), rfl, by
    simp [duplicator_capture_tick, example_session, example_host, duplicator_capture_create,
      update_settings, track_foreground_window, acquire_duplicator, pull_frame,
      prime_reset_timeout, reset_capture_data, capture_cursor_state, RESET_INTERVAL_SEC, bzalloc_capture,
      obs_data_get_bool, obs_data_item, example_settings, region_zero],
    tick_hidden_releases _ _ 0 (reachable_tick _ _ _ (reachable_create _ _)) rfl⟩

/-! ## C2 -/

/-- C2: in a reachable session whose showing flag is false, a tick in which
the host shows the source and the elapsed time is not negative makes exactly
one creation attempt, whatever the retry timer held. -/
theorem tick_first_shown_attempts_once (os : host) (c : duplicator_capture) (seconds : ℚ)
    (hr : Reachable c) (hs : c.showing = false) (ho : os.obs_source_showing = true)
    (hsec : 0 ≤ seconds) :
    creation_attempts (duplicator_capture_tick os c seconds).2 = 1 := by
  have hd := (session_inv_of_reachable c hr).1 hs
  rw [tick_shown os c seconds ho]
  rw [acquire_duplicator_none _ _ _ (by simpa [prime_reset_timeout] using hd)]
  have hle : RESET_INTERVAL_SEC ≤
      f32 ((prime_reset_timeout (track_foreground_window os c seconds)).reset_timeout +
        seconds) := by
    apply f32_reset_le
    simp only [prime_reset_timeout, track_showing, hs]
    simpa using hsec
  simp only [hle, if_true]
  cases hcr : os.gs_duplicator_create
      (prime_reset_timeout (track_foreground_window os c seconds)).monitor with
  | none =>
    rw [pull_frame_none _ _ (by simp [hcr])]
    simp [creation_attempts, gs_call.is_create]
  | some d =>
    cases hu : os.gs_duplicator_update_frame d
    · rw [pull_frame_fail _ _ d (by simp [hcr]) hu]
      simp [creation_attempts, gs_call.is_create]
    · by_cases hw : (track_foreground_window os c seconds).capture.width = 0
      · rw [pull_frame_reset _ _ d (by simp [hcr]) hu (by simpa [prime_reset_timeout] using hw)]
        simp [creation_attempts, gs_call.is_create]
      · rw [pull_frame_keep _ _ d (by simp [hcr]) hu (by simpa [prime_reset_timeout] using hw)]
        simp [creation_attempts, gs_call.is_create]

/-- C2 at a concrete input: the first tick after create. -/
theorem tick_first_shown_attempts_once_witness :
    Reachable example_session ∧ example_session.showing = false ∧
    (example_host true none true).obs_source_showing = true ∧ (0 : ℚ) ≤ 1 / 64 ∧
    creation_attempts
      (duplicator_capture_tick (example_host true none true) example_session (1 / 64)).2 = 1 :=
  ⟨reachable_create _ _, rfl, rfl, by norm_num,
    tick_first_shown_attempts_once _ _ _ (reachable_create _ _) rfl rfl (by norm_num)⟩

/-! ## C3 -/

/-- C3 fails as stated: from the session a failed attempt leaves (no
duplicator, showing, timer 0), six ticks of 2 seconds with every creation
failing make 3 attempts, while floor(12 / 3.0) is 4; and on the fresh session
one tick of 1 second makes 1 attempt, while floor(1 / 3.0) is 0. -/
theorem retry_count_counterexample :
    (failed_session.duplicator = none ∧ failed_session.showing = true ∧
      failed_session.reset_timeout = 0) ∧
    creation_attempts
      (run_calls (ticks_of (List.replicate 6 (example_host true none true)) 2)
        failed_session).2 = 3 ∧
    ⌊((6 : ℚ) * 2) / 3⌋₊ = 4 ∧
    example_session.duplicator = none ∧
    creation_attempts
      (run_calls (ticks_of (List.replicate 1 (example_host true none true)) 1)
        example_session).2 = 1 ∧
    ⌊((1 : ℚ) * 1) / 3⌋₊ = 0 := by
  refine ⟨failed_session_state, ?_, ?_, rfl, ?_, ?_⟩
  · rw [retry_attempts_from _ 2 2 (by rw [timer_sum_two.2]; norm_num [RESET_INTERVAL_SEC])
      (by
        intro j hj
        interval_cases j
        · norm_num [timer_sum, RESET_INTERVAL_SEC]
        · rw [timer_sum_two.1]; norm_num [RESET_INTERVAL_SEC])
      (failing_hosts 6) failed_session 0
      (by norm_num) failed_session_state.1 failed_session_state.2.1
      (by rw [failed_session_state.2.2]; rfl)]
    simp
  · rw [show ((6 : ℚ) * 2) / 3 = ((4 : ℕ) : ℚ) by norm_num, Nat.floor_natCast]
  · have h4 : f32 (3 + 1) = 4 := by norm_num [f32_four]
    have h34 : (3 : ℚ) ≤ 4 := by norm_num
    simp [ticks_of, run_calls, host_call.apply, creation_attempts, gs_call.is_create,
      duplicator_capture_tick, example_session, example_settings,
      example_host, duplicator_capture_create, update_settings, track_foreground_window,
      acquire_duplicator, pull_frame, prime_reset_timeout, RESET_INTERVAL_SEC, bzalloc_capture,
      obs_data_get_bool, obs_data_get_int, obs_data_item, region_zero, to_long, h4, h34]
  · rw [Nat.floor_eq_zero]
    norm_num

/-- C3, amended: on a session with no duplicator, showing flag set and retry
timer 0, n consecutive ticks of d seconds with the host showing and every
creation attempt failing make floor(n / k) attempts, where k is the number of
ticks the timer needs to reach 3.0 from 0: the least k at which the binary32
sum of k ticks, rounded at each tick, is 3.0 or more (the timer restarts from
0 at each attempt). When d > 0 and the sums of up to k ticks are exact, k is
ceil(3.0 / d), and the count is floor(T / 3.0) for T = n * d when moreover 3.0
is the whole multiple k * d of d. -/
theorem retry_attempts_per_interval (hosts : List host) (d : ℚ) (c : duplicator_capture)
    (k : Nat)
    (hh : ∀ os ∈ hosts, os.obs_source_showing = true ∧ ∀ m, os.gs_duplicator_create m = none)
    (hdup : c.duplicator = none) (hs : c.showing = true) (ht : c.reset_timeout = 0)
    (hk : RESET_INTERVAL_SEC ≤ timer_sum d k)
    (hlt : ∀ j, j < k → timer_sum d j < RESET_INTERVAL_SEC) :
    creation_attempts (run_calls (ticks_of hosts d) c).2 = hosts.length / k ∧
      (0 < d → (∀ j, j ≤ k → timer_sum d j = j * d) →
        k = ⌈RESET_INTERVAL_SEC / d⌉₊ ∧
        ((k : ℚ) * d = RESET_INTERVAL_SEC →
          creation_attempts (run_calls (ticks_of hosts d) c).2 =
            ⌊((hosts.length : ℚ) * d) / RESET_INTERVAL_SEC⌋₊)) := by
  have hk0 : 0 < k := by
    rcases Nat.eq_zero_or_pos k with h | h
    · rw [h] at hk
      norm_num [timer_sum, RESET_INTERVAL_SEC] at hk
    · exact h
  have h := retry_attempts_from hosts d k hk hlt hh c 0 hk0 hdup hs (by rw [ht]; rfl)
  rw [Nat.zero_add] at h
  refine ⟨h, fun hd hex => ⟨?_, fun hkd => ?_⟩⟩
  · symm
    rw [Nat.ceil_eq_iff (by omega)]
    have e1 := hex k (le_refl _)
    have e2 := hex (k - 1) (by omega)
    have l2 := hlt (k - 1) (by omega)
    rw [e1] at hk
    rw [e2] at l2
    constructor
    · rw [lt_div_iff₀ hd]; exact l2
    · rw [div_le_iff₀ hd]; exact hk
  · have e : ((hosts.length : ℚ) * d) / RESET_INTERVAL_SEC =
        (hosts.length : ℚ) / (k : ℚ) := by
      rw [← hkd, mul_div_mul_right _ _ (ne_of_gt hd)]
    rw [h, e, Nat.floor_div_eq_div]

/-- C3 amended, at a concrete input: six ticks of 1 second after a failed
attempt make 2 attempts, the timer reaching 3.0 at every third tick. -/
theorem retry_attempts_per_interval_witness :
    creation_attempts
        (run_calls (ticks_of (List.replicate 6 (example_host true none true)) 1)
          failed_session).2 =
      (List.replicate 6 (example_host true none true)).length / 3 ∧
    timer_sum 1 3 = 3 :=
  ⟨(retry_attempts_per_interval (List.replicate 6 (example_host true none true)) 1
    failed_session 3 (failing_hosts 6) failed_session_state.1
    failed_session_state.2.1 failed_session_state.2.2
    (by rw [timer_sum_one.2.2]; norm_num [RESET_INTERVAL_SEC])
    (by
      intro j hj
      interval_cases j
      · norm_num [timer_sum, RESET_INTERVAL_SEC]
      · rw [timer_sum_one.1]; norm_num [RESET_INTERVAL_SEC]
      · rw [timer_sum_one.2.1]; norm_num [RESET_INTERVAL_SEC])).1, timer_sum_one.2.2⟩

/-! ## C4 -/

/-- C4: after update, whatever the session and the settings were, capture,
target and display are zero in every field and the duplicator handle is null. -/
theorem update_resets_geometry (c : duplicator_capture) (settings : obs_data) :
    (duplicator_capture_update c settings).1.capture =
        { x := 0, y := 0, width := 0, height := 0 } ∧
      (duplicator_capture_update c settings).1.target =
        { x := 0, y := 0, width := 0, height := 0 } ∧
      (duplicator_capture_update c settings).1.display =
        { x := 0, y := 0, width := 0, height := 0 } ∧
      (duplicator_capture_update c settings).1.duplicator = none := by
  simp [duplicator_capture_update, update_settings, region_zero]

/-! ## C5 -/

/-- C5: for a rotation of 0, 90, 180 or 270 degrees, get_width and get_height
return capture.height and capture.width when the rotation is 90 or 270, and
capture.width and capture.height when it is 0 or 180. -/
theorem size_swapped_by_rotation (c : duplicator_capture)
    (hr : c.rot = 0 ∨ c.rot = 90 ∨ c.rot = 180 ∨ c.rot = 270) :
    (c.rot = 90 ∨ c.rot = 270 →
      duplicator_capture_width c = c.capture.height ∧
        duplicator_capture_height c = c.capture.width) ∧
    (c.rot = 0 ∨ c.rot = 180 →
      duplicator_capture_width c = c.capture.width ∧
        duplicator_capture_height c = c.capture.height) := by
  have h0 : Int.tmod 0 180 = 0 := by decide
  have h90 : Int.tmod 90 180 = 90 := by decide
  have h180 : Int.tmod 180 180 = 0 := by decide
  have h270 : Int.tmod 270 180 = 90 := by decide
  rcases hr with h | h | h | h <;>
    simp [duplicator_capture_width, duplicator_capture_height, h, h0, h90, h180, h270]

/-- C5 at a concrete input: rotation 90 with a capture of 1920x1080 reports
1080x1920. -/
theorem size_swapped_by_rotation_witness :
    duplicator_capture_width (rotated_session 90) = 1080 ∧
      duplicator_capture_height (rotated_session 90) = 1920 :=
  (size_swapped_by_rotation (rotated_session 90) (Or.inr (Or.inl rfl))).1 (Or.inl rfl)

/-! ## C6 -/

/-- C6 fails as stated, in two ways. In window-follow mode with a foreground
window that has no caption style bit, the tick that acquires the duplicator
returns with target still zero while display holds the monitor geometry. And
the validity test looks up the monitor at the origin of display, which is zero
until the geometry has been read: a session that captures monitor 1, at
(1920,0), takes the rectangle of a captioned window on monitor 0 as target. -/
theorem invalid_window_target_counterexample :
    (follow_session.capture_foreground_window = true ∧
      (example_host true (some 5) true).GetWindowLong_STYLE
        (top_level_window (example_host true (some 5) true).GetForegroundWindow) &&&
          WS_CAPTION = 0 ∧
      (duplicator_capture_tick (example_host true (some 5) true) follow_session 0).1.target =
        { x := 0, y := 0, width := 0, height := 0 } ∧
      (duplicator_capture_tick (example_host true (some 5) true) follow_session 0).1.display =
        { x := 0, y := 0, width := 1920, height := 1080 } ∧
      (duplicator_capture_tick (example_host true (some 5) true) follow_session 0).1.target ≠
        (duplicator_capture_tick (example_host true (some 5) true) follow_session
          0).1.display) ∧
    (follow_monitor_session.capture_foreground_window = true ∧
      follow_monitor_session.monitor = 1 ∧
      (two_monitor_host false none).gs_get_duplicator_monitor_info 1 =
        some { rotation_degrees := 0, x := 1920, y := 0, cx := 1920, cy := 1080 } ∧
      (two_monitor_host false none).MonitorFromPoint { x := 1920, y := 0 } ≠
        (two_monitor_host false none).MonitorFromWindow
          (top_level_window (two_monitor_host false none).GetForegroundWindow) ∧
      (two_monitor_host false none).GetWindowLong_STYLE
        (top_level_window (two_monitor_host false none).GetForegroundWindow) &&&
          WS_CAPTION ≠ 0 ∧
      (duplicator_capture_tick (two_monitor_host false none) follow_monitor_session
        (1 / 64)).1.target = { x := 100, y := 100, width := 800, height := 600 } ∧
      (duplicator_capture_tick (two_monitor_host false none) follow_monitor_session
        (1 / 64)).1.display = { x := 0, y := 0, width := 0, height := 0 }) := by
  have e : (duplicator_capture_tick (example_host true (some 5) true) follow_session 0).1 =
      { follow_session with
          showing := true, duplicator := some 5, reset_timeout := 0
          capture := { x := 0, y := 0, width := 1920, height := 1080 }
          display := { x := 0, y := 0, width := 1920, height := 1080 } } := by
    simp [duplicator_capture_tick, follow_session, follow_settings, example_host,
      duplicator_capture_create, update_settings, track_foreground_window, acquire_duplicator,
      pull_frame, prime_reset_timeout, reset_capture_data, capture_cursor_state,
      RESET_INTERVAL_SEC, bzalloc_capture, obs_data_get_bool, obs_data_get_int, obs_data_item,
      resolve_target, smooth_capture, is_valid_window, top_level_window, region_zero, to_long,
      List.lookup]
  rw [e]
  refine ⟨⟨?_, ?_, ?_, ?_, ?_⟩,
    ⟨follow_monitor_session_state.1, follow_monitor_session_state.2.1,
      ?_, ?_, ?_, (two_monitor_tick (1 / 64)).1, (two_monitor_tick (1 / 64)).2⟩⟩
  · simp [follow_session, follow_settings, duplicator_capture_create, update_settings,
      obs_data_get_bool, obs_data_item, List.lookup]
  · simp [example_host]
  · simp [follow_session, duplicator_capture_create, update_settings, region_zero]
  · rfl
  · simp [follow_session, duplicator_capture_create, update_settings, region_zero]
  · simp [two_monitor_host]
  · simp [two_monitor_host, top_level_window]
  · simp [two_monitor_host, top_level_window, WS_CAPTION]

/-- C6, amended: in window-follow mode, when the top-level foreground window
is on another monitor than the one at the origin of display (the point the
validity test of the code looks up; display is zero until the monitor
geometry has been read) or has no caption style bit, the tick returns with
target equal to display in all four fields, except in a tick whose successful
frame pull reads the monitor geometry, where target equals the value display
had when the tick began. -/
theorem invalid_window_target_is_display (os : host) (c : duplicator_capture) (seconds : ℚ)
    (hf : c.capture_foreground_window = true)
    (hw : os.MonitorFromPoint { x := c.display.x, y := c.display.y } ≠
        os.MonitorFromWindow (top_level_window os.GetForegroundWindow) ∨
      os.GetWindowLong_STYLE (top_level_window os.GetForegroundWindow) &&& WS_CAPTION = 0) :
    (duplicator_capture_tick os c seconds).1.target =
        (duplicator_capture_tick os c seconds).1.display ∨
      ((duplicator_capture_tick os c seconds).1.target = c.display ∧
        ∃ d, gs_call.duplicator_update_frame d ∈ (duplicator_capture_tick os c seconds).2 ∧
          os.gs_duplicator_update_frame d = true ∧
          (track_foreground_window os c seconds).capture.width = 0) := by
  have hv := is_valid_window_false os c _ hw
  have ht := track_target_invalid os c seconds hf hv
  cases ho : os.obs_source_showing
  · rw [tick_hidden os c seconds ho]
    cases hs : c.showing
    · left; simp [ht]
    · left; simp [free_capture_data]
  · rw [tick_shown os c seconds ho]
    obtain ⟨a1, a2, a3, a4, a5, a6, a7⟩ := acquire_duplicator_frame os
      (prime_reset_timeout (track_foreground_window os c seconds)) seconds
    generalize acquire_duplicator os
      (prime_reset_timeout (track_foreground_window os c seconds)) seconds = a at *
    have b2 : a.1.target = c.display := by rw [a2]; simp [prime_reset_timeout, ht]
    have b3 : a.1.display = c.display := by rw [a3]; simp [prime_reset_timeout]
    have b1 : a.1.capture = (track_foreground_window os c seconds).capture := by
      rw [a1]; simp [prime_reset_timeout]
    cases hd : a.1.duplicator with
    | none => left; simp [pull_frame_none os a.1 hd, b2, b3]
    | some d =>
      cases hu : os.gs_duplicator_update_frame d
      · left; simp [pull_frame_fail os a.1 d hd hu, free_capture_data]
      · by_cases hwd : a.1.capture.width = 0
        · right
          refine ⟨?_, d, ?_, hu, by rw [← b1]; exact hwd⟩
          · simp [pull_frame_reset os a.1 d hd hu hwd, reset_capture_data, capture_cursor_state,
              b2]
          · exact List.mem_append_right _ (pull_frame_logs os a.1 d hd)
        · left
          simp [pull_frame_keep os a.1 d hd hu hwd, capture_cursor_state, b2, b3]

/-- C6 amended, at a concrete input: a session in window-follow mode that
holds a duplicator with the geometry of a 1920x1080 monitor and has followed a
window to the target 800x600 at (100,100); when the foreground window is one
without caption, the tick returns with target and display both at the monitor
geometry. -/
theorem invalid_window_target_is_display_witness :
    held_follow_session.capture_foreground_window = true ∧
    held_follow_session.target = { x := 100, y := 100, width := 800, height := 600 } ∧
    (example_host true none true).GetWindowLong_STYLE
      (top_level_window (example_host true none true).GetForegroundWindow) &&& WS_CAPTION
      = 0 ∧
    (duplicator_capture_tick (example_host true none true) held_follow_session
      (1 / 64)).1.display = { x := 0, y := 0, width := 1920, height := 1080 } ∧
    (duplicator_capture_tick (example_host true none true) held_follow_session
      (1 / 64)).1.target = { x := 0, y := 0, width := 1920, height := 1080 } :=
  have hf : held_follow_session.capture_foreground_window = true := by
    simp [held_follow_session, follow_session, follow_settings, duplicator_capture_create,
      update_settings, obs_data_get_bool, obs_data_item, List.lookup]
  have hs : (example_host true none true).GetWindowLong_STYLE
      (top_level_window (example_host true none true).GetForegroundWindow) &&& WS_CAPTION
      = 0 := by simp [example_host]
  have h := invalid_window_target_is_display (example_host true none true)
    held_follow_session (1 / 64) hf (Or.inr hs)
  ⟨hf, rfl, hs, held_follow_tick_display, by
    rcases h with h | ⟨h, _⟩
    · rw [h, held_follow_tick_display]
    · rw [h]
      rfl⟩

/-! ## C7 -/

/-- C7 fails as stated: with elapsed_seconds = 1/32 (factor 0.9375) and a
capture one unit away from the target in every field, the smoother step
returns the same capture, so no number of steps reaches the target. The same
happens at 0.016666666 second, the float below 1/60, whose factor 0.49999997
is below 1/2: between the target 1000 and the capture 1001 the binary32 blend
is 1000.5, which round sends back to 1001. -/
theorem smoother_stuck_counterexample :
    ((0 : ℚ) < 1 / 32 ∧
      stuck_session.capture = { x := 1, y := 1, width := 1, height := 1 } ∧
      stuck_session.target = { x := 0, y := 0, width := 0, height := 0 } ∧
      smooth_capture stuck_session (1 / 32) = stuck_session ∧
      ¬ ∃ n, (smooth_steps (1 / 32) n stuck_session).capture = stuck_session.target) ∧
    ((0 : ℚ) < 1118481 / 67108864 ∧
      f32 (1118481 / 67108864) = 1118481 / 67108864 ∧
      f32 (1118481 / 67108864 * 30) < 1 / 2 ∧
      near_session.capture = { x := 1001, y := 1001, width := 1001, height := 1001 } ∧
      near_session.target = { x := 1000, y := 1000, width := 1000, height := 1000 } ∧
      smooth_capture near_session (1118481 / 67108864) = near_session ∧
      ¬ ∃ n, (smooth_steps (1118481 / 67108864) n near_session).capture =
        near_session.target) := by
  refine ⟨⟨by norm_num, rfl, rfl, smooth_capture_stuck, ?_⟩,
    ⟨by norm_num, ?_, ?_, rfl, rfl, smooth_capture_near_stuck, ?_⟩⟩
  · rintro ⟨n, hn⟩
    rw [smooth_steps_fixed _ _ smooth_capture_stuck n] at hn
    revert hn
    decide
  · have h := f32_exact 1118481 (-26) (by norm_num) (by norm_num)
    norm_num at h
    exact h
  · rw [lerp_near_half.1]
    norm_num
  · rintro ⟨n, hn⟩
    rw [smooth_steps_fixed _ _ smooth_capture_near_stuck n] at hn
    revert hn
    decide

/-- C7, amended: for a fixed target and every elapsed_seconds > 0 of at most
1/64 second (the binary32 factor elapsed_seconds * 30 is then at most 15/32),
with the fields of capture and target at most 65536 in magnitude, repeating
the smoother step, every float operation rounded to binary32, reaches
capture == target within as many steps as the largest field distance and
stays there, and at every step each field lies between its previous value and
its target value (no overshoot, no oscillation). -/
theorem smoother_converges (c : duplicator_capture) (seconds : ℚ)
    (h0 : 0 < seconds) (h1 : seconds ≤ 1 / 64)
    (ht : region_small c.target) (hc : region_small c.capture) :
    (∀ n, region_gap c.target c.capture ≤ n →
      (smooth_steps seconds n c).capture = c.target) ∧
    (∀ n, region_between c.target (smooth_steps seconds n c).capture
      (smooth_steps seconds (n + 1) c).capture) := by
  have h30 : 0 ≤ seconds := le_of_lt h0
  refine ⟨fun n hn => smooth_steps_reach seconds h30 h1 n c ht hc hn, fun n => ?_⟩
  obtain ⟨r1, r2⟩ := smooth_steps_range seconds h30 h1 n c ht hc
  obtain ⟨s1, s2, s3, s4⟩ := smooth_capture_step (smooth_steps seconds n c) seconds h30 h1
    (by rw [r1]; exact ht) r2
  rw [smooth_steps_succ]
  rw [r1] at s3
  exact s3

/-- C7 amended, at a concrete input: at 64 ticks per second a capture of
1920x1080 at the origin reaches the target 800x600 at (100,50) within 1120
steps. -/
theorem smoother_converges_witness :
    (0 : ℚ) < 1 / 64 ∧
    (smooth_steps (1 / 64) 1120 moving_session).capture =
      { x := 100, y := 50, width := 800, height := 600 } :=
  ⟨by norm_num,
    (smoother_converges moving_session (1 / 64) (by norm_num) (by norm_num)
      (by simp [region_small, moving_session])
      (by simp [region_small, moving_session])).1 1120
      (by simp [region_gap, moving_session])⟩

/-! ## C8 -/

/-- C8 fails as stated, in two ways. With window-follow off, the tick that
creates the duplicator and pulls its first frame sets display and capture to
the monitor geometry and leaves target zero. With window-follow on, the
smoother can move capture towards a window rectangle before the duplicator is
created (here in the same tick, 1/64 second elapsed): the first successful pull
then finds a capture width other than 0, reads no geometry and leaves display
zero, on a monitor of 1920x1080. -/
theorem first_pull_target_counterexample :
    ((duplicator_capture_tick (example_host true (some 5) true) example_session 0).2 =
        [gs_call.duplicator_create 0, gs_call.duplicator_update_frame 5] ∧
      (duplicator_capture_tick (example_host true (some 5) true) example_session 0).1.display =
        { x := 0, y := 0, width := 1920, height := 1080 } ∧
      (duplicator_capture_tick (example_host true (some 5) true) example_session 0).1.capture =
        { x := 0, y := 0, width := 1920, height := 1080 } ∧
      (duplicator_capture_tick (example_host true (some 5) true) example_session 0).1.target =
        { x := 0, y := 0, width := 0, height := 0 }) ∧
    (follow_session.capture_foreground_window = true ∧
      follow_session.duplicator = none ∧
      (duplicator_capture_tick (two_monitor_host true (some 5)) follow_session (1 / 64)).2 =
        [gs_call.duplicator_create 0, gs_call.duplicator_update_frame 5] ∧
      (two_monitor_host true (some 5)).gs_duplicator_update_frame 5 = true ∧
      (two_monitor_host true (some 5)).gs_get_duplicator_monitor_info 0 =
        some { rotation_degrees := 0, x := 0, y := 0, cx := 1920, cy := 1080 } ∧
      (two_monitor_host true (some 5)).gs_duplicator_get_texture 5 =
        some { width := 1920, height := 1080 } ∧
      (duplicator_capture_tick (two_monitor_host true (some 5)) follow_session
        (1 / 64)).1.display = { x := 0, y := 0, width := 0, height := 0 } ∧
      (duplicator_capture_tick (two_monitor_host true (some 5)) follow_session
        (1 / 64)).1.capture = { x := 53, y := 53, width := 425, height := 319 }) := by
  refine ⟨?_, ?_, ?_, follow_first_tick.1, rfl, ?_, rfl, follow_first_tick.2.2.1,
    follow_first_tick.2.1⟩
  · simp [duplicator_capture_tick, example_session, example_settings, example_host,
      duplicator_capture_create, update_settings, track_foreground_window, acquire_duplicator,
      pull_frame, prime_reset_timeout, reset_capture_data, capture_cursor_state,
      RESET_INTERVAL_SEC, bzalloc_capture, obs_data_get_bool, obs_data_get_int, obs_data_item,
      region_zero, to_long]
  · simp [follow_session, follow_settings, duplicator_capture_create, update_settings,
      obs_data_get_bool, obs_data_item, List.lookup]
  · simp [follow_session, duplicator_capture_create, update_settings]
  · simp [two_monitor_host]

/-- C8, amended: for every reachable session with window-follow off, in the
tick that creates the duplicator and pulls its first frame with success (a
failed pull destroys the duplicator, so the first successful pull after a
creation is in the tick of the creation), display and capture are each set to
the monitor position and the size of the duplicated texture, and rot to the
monitor rotation; target is not set and stays zero. -/
theorem first_pull_reads_geometry (os : host) (c : duplicator_capture) (seconds : ℚ) (d : Nat)
    (info : gs_monitor_info) (tex : gs_texture)
    (hr : Reachable c)
    (hf : c.capture_foreground_window = false)
    (hc : gs_call.duplicator_create c.monitor ∈ (duplicator_capture_tick os c seconds).2)
    (hp : gs_call.duplicator_update_frame d ∈ (duplicator_capture_tick os c seconds).2)
    (hu : os.gs_duplicator_update_frame d = true)
    (hinfo : os.gs_get_duplicator_monitor_info c.monitor = some info)
    (htex : os.gs_duplicator_get_texture d = some tex) :
    (duplicator_capture_tick os c seconds).1.display =
        { x := info.x, y := info.y, width := tex.width, height := tex.height } ∧
      (duplicator_capture_tick os c seconds).1.capture =
        { x := info.x, y := info.y, width := tex.width, height := tex.height } ∧
      (duplicator_capture_tick os c seconds).1.rot = info.rotation_degrees ∧
      (duplicator_capture_tick os c seconds).1.target =
        { x := 0, y := 0, width := 0, height := 0 } := by
  obtain ⟨ho, hd⟩ := tick_creates os c seconds c.monitor hc
  obtain ⟨_, i2, i3⟩ := session_inv_of_reachable c hr
  have hoff := track_foreground_window_off os c seconds hf
  have hw : (track_foreground_window os c seconds).capture.width = 0 := by
    rw [hoff, (i3 hf hd).1]
    rfl
  obtain ⟨g1, g2, g3, g4⟩ := tick_reads_geometry os c seconds d info tex ho hp hu hw hinfo htex
  refine ⟨g1, g2, g3, ?_⟩
  rw [g4, hoff, (i2 hf).2]
  rfl

/-- C8 amended, at a concrete input: the first tick after create, window-follow
off, monitor at (0,0) with a texture of 1920x1080. -/
theorem first_pull_reads_geometry_witness :
    (duplicator_capture_tick (example_host true (some 5) true) example_session 0).1.display =
        { x := 0, y := 0, width := 1920, height := 1080 } ∧
      (duplicator_capture_tick (example_host true (some 5) true) example_session 0).1.capture =
        { x := 0, y := 0, width := 1920, height := 1080 } ∧
      (duplicator_capture_tick (example_host true (some 5) true) example_session 0).1.rot = 0 ∧
      (duplicator_capture_tick (example_host true (some 5) true) example_session 0).1.target =
        { x := 0, y := 0, width := 0, height := 0 } :=
  first_pull_reads_geometry (example_host true (some 5) true) example_session 0 5
    { rotation_degrees := 0, x := 0, y := 0, cx := 1920, cy := 1080 }
    { width := 1920, height := 1080 } (reachable_create example_settings 1) rfl
    (by rw [example_first_tick_log]; simp [example_session, duplicator_capture_create,
      update_settings, example_settings, obs_data_get_int, obs_data_item, to_long])
    (by rw [example_first_tick_log]; simp) rfl rfl rfl

/-! ## C9 -/

/-- C9: when a tick runs with the host showing and the frame pull it makes on
the duplicator (held before or created in this tick) fails, the tick returns
with the handle null, the retry timer 0, and capture, target, display and rot
all zero; the showing flag is set, so the next tick counts from that 0. -/
theorem tick_pull_failure_frees (os : host) (c : duplicator_capture) (seconds : ℚ) (d : Nat)
    (ho : os.obs_source_showing = true)
    (hp : gs_call.duplicator_update_frame d ∈ (duplicator_capture_tick os c seconds).2)
    (hu : os.gs_duplicator_update_frame d = false) :
    (duplicator_capture_tick os c seconds).1.duplicator = none ∧
      (duplicator_capture_tick os c seconds).1.reset_timeout = 0 ∧
      (duplicator_capture_tick os c seconds).1.capture =
        { x := 0, y := 0, width := 0, height := 0 } ∧
      (duplicator_capture_tick os c seconds).1.target =
        { x := 0, y := 0, width := 0, height := 0 } ∧
      (duplicator_capture_tick os c seconds).1.display =
        { x := 0, y := 0, width := 0, height := 0 } ∧
      (duplicator_capture_tick os c seconds).1.rot = 0 ∧
      (duplicator_capture_tick os c seconds).1.showing = true := by
  have hd := tick_pull_log os c seconds d ho hp
  rw [tick_shown os c seconds ho, pull_frame_fail _ _ d hd hu]
  simp [free_capture_data, region_zero]

/-- C9 at a concrete input: the first tick after create acquires duplicator 5
and its frame pull fails. -/
theorem tick_pull_failure_frees_witness :
    (example_host true (some 5) false).obs_source_showing = true ∧
    gs_call.duplicator_update_frame 5 ∈
      (duplicator_capture_tick (example_host true (some 5) false) example_session 0).2 ∧
    (example_host true (some 5) false).gs_duplicator_update_frame 5 = false ∧
    (duplicator_capture_tick (example_host true (some 5) false) example_session 0).1.duplicator
      = none ∧
    (duplicator_capture_tick (example_host true (some 5) false) example_session
      0).1.reset_timeout = 0 :=
  have hp : gs_call.duplicator_update_frame 5 ∈
      (duplicator_capture_tick (example_host true (some 5) false) example_session 0).2 := by
    simp [duplicator_capture_tick, example_session, example_host, duplicator_capture_create,
      update_settings, track_foreground_window, acquire_duplicator, pull_frame,
      prime_reset_timeout, free_capture_data, capture_cursor_state, RESET_INTERVAL_SEC,
      bzalloc_capture, obs_data_get_bool, obs_data_item, example_settings]
  ⟨rfl, hp, rfl,
    (tick_pull_failure_frees (example_host true (some 5) false) example_session 0 5 rfl hp
      rfl).1,
    (tick_pull_failure_frees (example_host true (some 5) false) example_session 0 5 rfl hp
      rfl).2.1⟩

/-! ## C10 -/

/-- C10: in every reachable session with window-follow off, capture equals
display in all four fields; and once a tick has acquired a monitor at (0,0) of
size 1920x1080 with rotation 0, get_width returns 1920 and get_height returns
1080 for as long as the duplicator stays held. -/
theorem capture_equals_display_without_follow (c : duplicator_capture)
    (hr : Reachable c) (hf : c.capture_foreground_window = false) :
    c.capture = c.display ∧
    ∀ (os : host) (seconds : ℚ) (d : Nat) (calls : List host_call),
      c.duplicator = none → os.obs_source_showing = true →
      (duplicator_capture_tick os c seconds).1.duplicator = some d →
      os.gs_get_duplicator_monitor_info c.monitor =
        some { rotation_degrees := 0, x := 0, y := 0, cx := 1920, cy := 1080 } →
      os.gs_duplicator_get_texture d = some { width := 1920, height := 1080 } →
      stays_held calls (duplicator_capture_tick os c seconds).1 = true →
      duplicator_capture_width (run_calls calls (duplicator_capture_tick os c seconds).1).1
          = 1920 ∧
        duplicator_capture_height (run_calls calls (duplicator_capture_tick os c seconds).1).1
          = 1080 := by
  obtain ⟨_, i2, i3⟩ := session_inv_of_reachable c hr
  refine ⟨(i2 hf).1, ?_⟩
  intro os seconds d calls hn ho hd hinfo htex hheld
  obtain ⟨hp, hu⟩ := tick_result_held os c seconds d ho hd
  have hw : (track_foreground_window os c seconds).capture.width = 0 := by
    rw [track_foreground_window_off os c seconds hf, (i3 hf hn).1]; rfl
  obtain ⟨g1, g2, g3, g4⟩ := tick_reads_geometry os c seconds d _ _ ho hp hu hw hinfo htex
  have hf2 : (duplicator_capture_tick os c seconds).1.capture_foreground_window = false := by
    rw [tick_shown os c seconds ho]
    have := (pull_frame_inv os (acquire_duplicator os
      (prime_reset_timeout (track_foreground_window os c seconds)) seconds).1).1
    have a5 := (acquire_duplicator_frame os
      (prime_reset_timeout (track_foreground_window os c seconds)) seconds).2.2.2.2.1
    simp only [this, a5]
    simpa [prime_reset_timeout] using hf
  obtain ⟨r1, r2⟩ := run_keeps_geometry calls _ d hf2 hd (by rw [g2]; decide) hheld
  simp only [duplicator_capture_width, duplicator_capture_height, r1, r2, g2, g3]
  decide

/-- C10 at a concrete input: the example session acquires the monitor in its
first tick and keeps 1920x1080 over two more ticks. -/
theorem capture_equals_display_without_follow_witness :
    example_session.capture = example_session.display ∧
    duplicator_capture_width
      (run_calls [host_call.video_tick (example_host true none true) 1,
                  host_call.video_tick (example_host true none true) 1]
        (duplicator_capture_tick (example_host true (some 5) true) example_session 0).1).1
      = 1920 ∧
    duplicator_capture_height
      (run_calls [host_call.video_tick (example_host true none true) 1,
                  host_call.video_tick (example_host true none true) 1]
        (duplicator_capture_tick (example_host true (some 5) true) example_session 0).1).1
      = 1080 :=
  have h := capture_equals_display_without_follow example_session (reachable_create _ _) rfl
  ⟨h.1, h.2 (example_host true (some 5) true) 0 5
    [host_call.video_tick (example_host true none true) 1,
     host_call.video_tick (example_host true none true) 1] rfl rfl
    (by simp [duplicator_capture_tick, example_session, example_settings, example_host,
      duplicator_capture_create, update_settings, track_foreground_window, acquire_duplicator,
      pull_frame, prime_reset_timeout, reset_capture_data, capture_cursor_state,
      RESET_INTERVAL_SEC, bzalloc_capture, obs_data_get_bool, obs_data_get_int, obs_data_item,
      region_zero, to_long])
    rfl rfl
    (by simp [stays_held, host_call.apply, duplicator_capture_tick, example_session,
      example_settings, example_host,
      duplicator_capture_create, update_settings, track_foreground_window, acquire_duplicator,
      pull_frame, prime_reset_timeout, reset_capture_data, capture_cursor_state,
      RESET_INTERVAL_SEC, bzalloc_capture, obs_data_get_bool, obs_data_get_int, obs_data_item,
      region_zero, to_long])⟩

/-! ## C11 -/

/-- C12: when capture equals target in all four fields, the smoother step of
the tick leaves capture unchanged, whatever the elapsed time. -/
theorem smoother_idempotent_at_target (c : duplicator_capture) (seconds : ℚ)
    (hx : c.capture.x = c.target.x) (hy : c.capture.y = c.target.y)
    (hw : c.capture.width = c.target.width) (hh : c.capture.height = c.target.height) :
    (smooth_capture c seconds).capture = c.capture := by
  simp [smooth_capture, hx, hy, hw, hh]

/-- C12 at a concrete input: a fresh session, capture and target both zero,
with an elapsed time of 7 seconds. -/
theorem smoother_idempotent_at_target_witness :
    (smooth_capture example_session 7).capture = example_session.capture :=
  smoother_idempotent_at_target example_session 7 rfl rfl rfl rfl

/-! ## C13 -/

/-- C13, the code at the failing input: on empty settings, defaults registers 0
under monitor and true under capture_cursor, registers false under
capture_focusedwindow, and registers nothing under capture_foreground_window,
the key from which update_settings reads the window-follow flag. -/
theorem defaults_miss_follow_key :
    update_settings_keys = ["monitor", "capture_cursor", "capture_foreground_window"] ∧
    (update_settings example_session
      (duplicator_capture_defaults example_settings)).1.capture_foreground_window =
      obs_data_get_bool (duplicator_capture_defaults example_settings)
        "capture_foreground_window" ∧
    (duplicator_capture_defaults example_settings).defaults.lookup "monitor" =
      some (obs_value.int 0) ∧
    (duplicator_capture_defaults example_settings).defaults.lookup "capture_cursor" =
      some (obs_value.bool true) ∧
    (duplicator_capture_defaults example_settings).defaults.lookup "capture_focusedwindow" =
      some (obs_value.bool false) ∧
    (duplicator_capture_defaults example_settings).defaults.lookup
      "capture_foreground_window" = none ∧
    ¬ ∀ key ∈ update_settings_keys,
      ((duplicator_capture_defaults example_settings).defaults.lookup key).isSome = true := by
  refine ⟨rfl, rfl, by decide, by decide, by decide, by decide, ?_⟩
  intro h
  have := h "capture_foreground_window" (by decide)
  revert this
  decide

/-! ## C14 -/

/-- C14 fails as stated: the timer is a binary32 sum. After an attempt, a tick
of 2 seconds and a tick of 0.99999994 seconds (the float below 1, 1 - 2 ^ -24)
bring the timer to the rounded sum 3.0, so the second tick attempts again,
after tick time of less than 3.0 seconds. -/
theorem attempts_interval_counterexample :
    0 < creation_attempts
      (duplicator_capture_tick (example_host true none true) example_session 0).2 ∧
    0 < creation_attempts
      (duplicator_capture_tick (example_host true none true)
        (run_calls (tick_calls [(example_host true none true, 2)])
          (duplicator_capture_tick (example_host true none true) example_session 0).1).1
        (16777215 / 16777216)).2 ∧
    elapsed [(example_host true none true, 2)] + 16777215 / 16777216 < RESET_INTERVAL_SEC ∧
    (16777215 : ℚ) / 16777216 = 1 - 1 / 2 ^ 24 ∧
    f32 (16777215 / 16777216) = 16777215 / 16777216 :=
  ⟨example_short_interval_run.1, example_short_interval_run.2,
    by norm_num [elapsed, RESET_INTERVAL_SEC], by norm_num,
    by
      have h := f32_exact 16777215 (-24) (by norm_num) (by norm_num)
      norm_num at h
      exact h⟩

/-- C14, amended: over ticks with elapsed times that are not negative, during
which the host keeps showing the source and no update occurs, a tick that makes
a creation attempt and any later tick that makes one are separated by tick
time of at least 3.0 seconds less 2 ^ -23 seconds for each tick after the
earlier one, the rounding of the binary32 timer sum: the elapsed times of the
ticks after the earlier one, up to and including the later one, sum to at
least 3.0 - (m + 1) / 2 ^ 23, m being the number of ticks in between, whatever
became of the earlier attempt. Each of the two ticks makes one attempt. -/
theorem attempts_interval_apart (c : duplicator_capture) (first : host × ℚ)
    (mid : List (host × ℚ)) (last : host × ℚ)
    (hfirst : first.1.obs_source_showing = true ∧ 0 ≤ first.2)
    (hmid : ∀ t ∈ mid, t.1.obs_source_showing = true ∧ 0 ≤ t.2)
    (hlast : last.1.obs_source_showing = true ∧ 0 ≤ last.2)
    (h1 : 0 < creation_attempts (duplicator_capture_tick first.1 c first.2).2)
    (h2 : 0 < creation_attempts
      (duplicator_capture_tick last.1
        (run_calls (tick_calls mid) (duplicator_capture_tick first.1 c first.2).1).1
        last.2).2) :
    RESET_INTERVAL_SEC - (mid.length + 1) / 2 ^ 23 ≤ elapsed mid + last.2 ∧
    creation_attempts (duplicator_capture_tick first.1 c first.2).2 = 1 ∧
    creation_attempts
      (duplicator_capture_tick last.1
        (run_calls (tick_calls mid) (duplicator_capture_tick first.1 c first.2).1).1
        last.2).2 = 1 := by
  have one : ∀ (l : List gs_call) (P : Prop) [Decidable P] (x : gs_call),
      l = (if P then [x] else []) → 0 < l.length → l.length = 1 := by
    intro l P _ x hl h
    by_cases hp : P <;> simp [hl, hp] at h ⊢
  obtain ⟨a1, a2, _, a4⟩ := tick_shown_timer first.1 c first.2 hfirst.1
  rw [creation_attempts_eq] at h1 h2 ⊢
  have hz : (duplicator_capture_tick first.1 c first.2).1.reset_timeout = 0 :=
    a2 (by intro h; rw [h] at h1; simp at h1)
  obtain ⟨r1, r2, r3⟩ := shown_run_timer mid _ hmid a4 (by rw [hz])
  obtain ⟨b1, _, _, _⟩ := tick_shown_timer last.1
    (run_calls (tick_calls mid) (duplicator_capture_tick first.1 c first.2).1).1 last.2 hlast.1
  rw [creation_attempts_eq]
  simp only [r1, if_true] at b1
  refine ⟨?_, ?_, ?_⟩
  · by_contra hlt
    have hneg : ¬ RESET_INTERVAL_SEC ≤
        f32 ((run_calls (tick_calls mid)
          (duplicator_capture_tick first.1 c first.2).1).1.reset_timeout + last.2) := by
      intro h
      apply hlt
      rw [hz] at r3
      generalize (run_calls (tick_calls mid)
        (duplicator_capture_tick first.1 c first.2).1).1.reset_timeout = t at r2 r3 h
      have hl := hlast.2
      by_cases hx : t + last.2 < RESET_INTERVAL_SEC
      · have he : |f32 (t + last.2) - (t + last.2)| ≤ 1 / 2 ^ 23 := by
          apply f32_error_small
          unfold RESET_INTERVAL_SEC at hx
          rw [abs_of_nonneg (by linarith)]
          linarith
        have he2 := (abs_le.1 he).2
        have e : ((mid.length : ℚ) + 1) / 2 ^ 23 = mid.length / 2 ^ 23 + 1 / 2 ^ 23 := by ring
        rw [e]
        linarith
      · have hp : (0 : ℚ) ≤ ((mid.length : ℚ) + 1) / 2 ^ 23 := by positivity
        have hq : (0 : ℚ) ≤ (mid.length : ℚ) / 2 ^ 23 := by positivity
        have e : ((mid.length : ℚ) + 1) / 2 ^ 23 = mid.length / 2 ^ 23 + 1 / 2 ^ 23 := by ring
        rw [e]
        rw [e] at hp
        linarith
    rw [b1] at h2
    simp [hneg] at h2
  · exact one _ _ _ a1 h1
  · exact one _ _ _ b1 h2

/-- C14 at a concrete input: a creation that succeeds, a teardown by a failed
frame pull 5 seconds later, and the next attempt 3 more seconds later, 8
seconds after the earlier one. -/
theorem attempts_interval_apart_witness :
    RESET_INTERVAL_SEC - (([(example_host true none false, (5 : ℚ)),
        (example_host true none true, 2)] : List (host × ℚ)).length + 1) / 2 ^ 23 ≤
      elapsed [(example_host true none false, 5), (example_host true none true, 2)] + 1 ∧
    creation_attempts
      (duplicator_capture_tick (example_host true none true)
        (run_calls (tick_calls [(example_host true none false, 5),
            (example_host true none true, 2)])
          (duplicator_capture_tick (example_host true (some 5) true) example_session 0).1).1
        1).2 = 1 :=
  have h := attempts_interval_apart example_session (example_host true (some 5) true, 0)
    [(example_host true none false, 5), (example_host true none true, 2)]
    (example_host true none true, 1) ⟨rfl, le_refl _⟩
    (by
      intro t ht
      simp only [List.mem_cons, List.mem_singleton, List.not_mem_nil, or_false] at ht
      rcases ht with rfl | rfl
      · exact ⟨rfl, by norm_num⟩
      · exact ⟨rfl, by norm_num⟩)
    ⟨rfl, by norm_num⟩ example_teardown_run.1 example_teardown_run.2
  ⟨h.1, h.2.2⟩

/-! ## C15 -/

/-- C15: for some target, some capture and some elapsed time whose factor
exceeds 1.0, one smoother step overshoots: a field of capture ends strictly
past its target value, on the other side of the target from where it started.
The instance: with an elapsed time of 1/2 second the factor is 15, and a
capture of width 0 with the target width 10 gets the width 4294967156. The
blend lerp(target, capture, factor) = target + factor * (capture - target) is
-140, on the side of the start, and the conversion to uint32_t, which is
defined for a negative value, stores it modulo 2 ^ 32. -/
theorem smoother_overshoots :
    (∃ (c : duplicator_capture) (seconds : ℚ),
      1 < seconds * 30 ∧ 1 < f32 (seconds * 30) ∧
      overshoots c.target.width c.capture.width (smooth_capture c seconds).capture.width) ∧
    wrap_session.target.width = 10 ∧ wrap_session.capture.width = 0 ∧
    f32 (1 / 2 * 30) = 15 ∧
    (smooth_capture wrap_session (1 / 2)).capture.width = 4294967156 := by
  have e15 : f32 (1 / 2 * 30) = 15 := by
    have h : f32 15 = 15 := by simpa using f32_intCast 15 (by norm_num)
    norm_num [h]
  have h : (smooth_capture wrap_session (1 / 2)).capture =
      { x := 0, y := 0, width := 4294967156, height := 0 } := by
    simp only [smooth_capture, wrap_session]
    rw [if_pos (by decide), smooth_region_wraps]
  refine ⟨⟨wrap_session, 1 / 2, by norm_num, ?_, ?_⟩, rfl, rfl, e15, by rw [h]⟩
  · rw [e15]
    norm_num
  · rw [h]
    simp [overshoots, wrap_session]

/-! ## C16 -/

/-- C16: the cursor overlay is drawn with offset (-capture.x, -capture.y),
scale (1, 1), and a clip width and height equal to what get_width and
get_height return for the same session. -/
theorem cursor_clip_matches_size (c : duplicator_capture) :
    draw_cursor c =
      draw_call.cursor_draw c.cursor_data (-c.capture.x) (-c.capture.y) 1 1
        (duplicator_capture_width c) (duplicator_capture_height c) := by
  rfl

/-! ## C17 -/

/-- C17: in every reachable session with window-follow off and no duplicator,
capture and display are zero in every field and rot is 0, so get_width and
get_height return 0. -/
theorem no_geometry_without_duplicator (c : duplicator_capture) (hr : Reachable c)
    (hf : c.capture_foreground_window = false) (hd : c.duplicator = none) :
    c.capture = { x := 0, y := 0, width := 0, height := 0 } ∧
      c.display = { x := 0, y := 0, width := 0, height := 0 } ∧ c.rot = 0 ∧
      duplicator_capture_width c = 0 ∧ duplicator_capture_height c = 0 := by
  obtain ⟨h1, h2, h3⟩ := (session_inv_of_reachable c hr).2.2 hf hd
  refine ⟨h1, h2, h3, ?_, ?_⟩
  · simp [duplicator_capture_width, h1, h3, region_zero]
  · simp [duplicator_capture_height, h1, h3, region_zero]

/-- C17 at a concrete input: a session that held a 1920x1080 monitor and lost
it to a failed frame pull. -/
theorem no_geometry_without_duplicator_witness :
    (duplicator_capture_tick (example_host true none true)
      (duplicator_capture_tick (example_host true (some 5) true) example_session 0).1
      1).1.capture = { x := 0, y := 0, width := 1920, height := 1080 } ∧
    duplicator_capture_width
      (duplicator_capture_tick (example_host true none false)
        (duplicator_capture_tick (example_host true (some 5) true) example_session 0).1
        1).1 = 0 ∧
    duplicator_capture_height
      (duplicator_capture_tick (example_host true none false)
        (duplicator_capture_tick (example_host true (some 5) true) example_session 0).1
        1).1 = 0 :=
  have e : (duplicator_capture_tick (example_host true none false)
      (duplicator_capture_tick (example_host true (some 5) true) example_session 0).1
      1).1.capture_foreground_window = false ∧
      (duplicator_capture_tick (example_host true none false)
      (duplicator_capture_tick (example_host true (some 5) true) example_session 0).1
      1).1.duplicator = none := by
    simp [duplicator_capture_tick, example_session, example_settings, example_host,
      duplicator_capture_create, update_settings, track_foreground_window, acquire_duplicator,
      pull_frame, prime_reset_timeout, reset_capture_data, free_capture_data,
      capture_cursor_state, RESET_INTERVAL_SEC, bzalloc_capture, obs_data_get_bool,
      obs_data_get_int, obs_data_item, region_zero, to_long]
  have h := no_geometry_without_duplicator _
    (reachable_tick (example_host true none false) _ 1
      (reachable_tick (example_host true (some 5) true) _ 0 (reachable_create _ _))) e.1 e.2
  ⟨by
    simp [duplicator_capture_tick, example_session, example_settings, example_host,
      duplicator_capture_create, update_settings, track_foreground_window, acquire_duplicator,
      pull_frame, prime_reset_timeout, reset_capture_data, free_capture_data,
      capture_cursor_state, RESET_INTERVAL_SEC, bzalloc_capture, obs_data_get_bool,
      obs_data_get_int, obs_data_item, region_zero, to_long], h.2.2.2.1, h.2.2.2.2⟩

/-! ## C18 -/

/-- C18: after update, whatever the session and the settings were, the first
tick in which the host shows the source (elapsed time not negative; any number
of ticks in which it does not show the source may come before) makes exactly
one creation attempt, for the monitor index read from the settings. -/
theorem first_shown_tick_after_update (c : duplicator_capture) (settings : obs_data)
    (hidden : List (host × ℚ)) (os : host) (seconds : ℚ)
    (hh : ∀ t ∈ hidden, t.1.obs_source_showing = false)
    (ho : os.obs_source_showing = true) (hs : 0 ≤ seconds) :
    creation_calls
      (duplicator_capture_tick os
        (run_calls (tick_calls hidden) (duplicator_capture_update c settings).1).1
        seconds).2 =
      [gs_call.duplicator_create (to_long (obs_data_get_int settings "monitor"))] ∧
    creation_attempts
      (duplicator_capture_tick os
        (run_calls (tick_calls hidden) (duplicator_capture_update c settings).1).1
        seconds).2 = 1 := by
  obtain ⟨k1, k2, k3⟩ := hidden_run_ready hidden (duplicator_capture_update c settings).1 hh
    (by simp [duplicator_capture_update, update_settings])
    (by simp [duplicator_capture_update, update_settings])
  obtain ⟨b1, _, _, _⟩ := tick_shown_timer os
    (run_calls (tick_calls hidden) (duplicator_capture_update c settings).1).1 seconds ho
  have hm : (duplicator_capture_update c settings).1.monitor =
      to_long (obs_data_get_int settings "monitor") := by
    simp [duplicator_capture_update, update_settings]
  have hle : RESET_INTERVAL_SEC ≤
      f32 ((if (run_calls (tick_calls hidden)
          (duplicator_capture_update c settings).1).1.showing
        then (run_calls (tick_calls hidden)
          (duplicator_capture_update c settings).1).1.reset_timeout
        else RESET_INTERVAL_SEC) + seconds) := by
    apply f32_reset_le
    split
    · rename_i h
      rw [k3 h]; linarith
    · linarith
  rw [creation_attempts_eq, b1, if_pos ⟨k1, hle⟩, k2, hm]
  simp

/-- C18 at a concrete input: a session holding a duplicator gets monitor 1
selected, is hidden for one tick, and attempts creation for monitor 1 in the
first tick in which it is shown again. -/
theorem first_shown_tick_after_update_witness :
    creation_calls
      (duplicator_capture_tick (example_host true none true)
        (run_calls (tick_calls [(example_host false none true, 1)])
          (duplicator_capture_update (rotated_session 0) monitor_settings).1).1
        0).2 =
      [gs_call.duplicator_create (to_long (obs_data_get_int monitor_settings "monitor"))] ∧
    to_long (obs_data_get_int monitor_settings "monitor") = 1 :=
  ⟨(first_shown_tick_after_update (rotated_session 0) monitor_settings
      [(example_host false none true, 1)] (example_host true none true) 0
      (by
        intro t ht
        simp only [List.mem_singleton] at ht
        rw [ht]
        rfl)
      rfl (le_refl _)).1,
    by simp [monitor_settings, obs_data_get_int, obs_data_item, to_long, List.lookup]⟩

end DuplicatorCapture
